import Mathlib

/-!
Verification of the Sentellent agent core (backend/app/agent and backend/app/db)
against its natural-language specification.

The Python sources are shallowly embedded: dict-shaped JSON data is the
`PyVal` type, Python string helpers are translated char-by-char, and the
orchestration graph (graph.py) is a transition relation over an explicit
state record.  External boundaries (the planning LLM, Google services,
the subprocess sandbox) are modelled as adversarial parameters.
-/

set_option maxRecDepth 8000

/-- JSON-like Python values as stored in the agent state, plans, tool
results and pending-action payloads. Dicts are association lists with
first-key-wins lookup (Python dicts have unique keys). -/
inductive PyVal where
  | str (s : String)
  | int (n : Int)
  | bool (b : Bool)
  | none
  | list (xs : List PyVal)
  | dict (kvs : List (String × PyVal))

/-- `d.get(k)` for a dict; `None`-returning lookup. Non-dict receivers give
`Option.none` (call sites in the source only reach this on dict values). -/
def dictGet (v : PyVal) (k : String) : Option PyVal :=
  match v with
  | .dict kvs => go kvs
  | _ => Option.none
where go : List (String × PyVal) → Option PyVal
  | [] => Option.none
  | (k', v') :: rest => if k' = k then some v' else go rest

/-- `d.get(k, default)`. -/
def dictGetD (v : PyVal) (k : String) (dflt : PyVal) : PyVal :=
  (dictGet v k).getD dflt

/-- Python truthiness of an embedded value. -/
def pyTruthy : PyVal → Bool
  | .str s => !(s == "")
  | .int n => !(n == 0)
  | .bool b => b
  | .none => false
  | .list xs => !xs.isEmpty
  | .dict kvs => !kvs.isEmpty

/-- `x or y` on embedded values: `x` when truthy, else `y`. -/
def pyOr (x y : PyVal) : PyVal := if pyTruthy x then x else y

/-- `str(x)` / f-string rendering for the value shapes the agent formats
into messages (strings render bare, as Python `str()` does). -/
def pyFormat : PyVal → String
  | .str s => s
  | .int n => toString n
  | .bool b => if b then "True" else "False"
  | .none => "None"
  | .list _ => "[...]"
  | .dict _ => "{...}"

/-- Whitespace characters recognised by Python `str.strip()`. -/
def isPySpace (c : Char) : Bool :=
  c = ' ' || c = '\t' || c = '\n' || c = '\r' || c = '\x0b' || c = '\x0c'

/-- Strip characters satisfying `p` from both ends of a char list. -/
def listStrip (p : Char → Bool) (cs : List Char) : List Char :=
  ((cs.dropWhile p).reverse.dropWhile p).reverse

/-- Python `str.strip()` (whitespace only). -/
def pyStrip (s : String) : String :=
  String.mk (listStrip isPySpace s.toList)

/-- Python `str.strip(chars)` for an explicit character set. -/
def pyStripChars (cs : List Char) (s : String) : String :=
  String.mk (listStrip (cs.contains ·) s.toList)

/-- ASCII lowercase of one character (the sources only lowercase ASCII). -/
def lowerChar (c : Char) : Char :=
  if 'A' ≤ c ∧ c ≤ 'Z' then Char.ofNat (c.toNat + 32) else c

/-- Python `str.lower()`. -/
def pyLower (s : String) : String := String.mk (s.toList.map lowerChar)

/-- Membership of `pat` as a contiguous substring (Python `pat in s`),
over char lists. -/
def listContainsSub (pat s : List Char) : Bool :=
  match s with
  | [] => pat.isEmpty
  | _ :: rest => pat.isPrefixOf s || listContainsSub pat rest

/-- Python `pat in s` for strings. -/
def strContainsSub (s pat : String) : Bool := listContainsSub pat.toList s.toList

/-- A regex `\w` character (ASCII portion, which is all the agent's
confirmation vocabulary uses). -/
def isWordChar (c : Char) : Bool := c.isAlphanum || c = '_'

/-- Word-boundary condition for the character preceding a match. -/
def boundaryOk : Option Char → Bool
  | Option.none => true
  | some c => !isWordChar c

/-- Word-boundary condition for the characters following a match. -/
def nextNonWord : List Char → Bool
  | [] => true
  | c :: _ => !isWordChar c

/-- `re.search(r"\b(p)\b", s)` for a single literal alternative `p`
(whose first and last characters are word characters): scan `s` for an
occurrence of `p` delimited by word boundaries. -/
def findWordAux (p : List Char) : Option Char → List Char → Bool
  | _, [] => false
  | prev, c :: rest =>
    (boundaryOk prev && p.isPrefixOf (c :: rest)
      && nextNonWord (List.drop p.length (c :: rest)))
    || findWordAux p (some c) rest

/-- `re.search(r"\b(p1|p2|...)\b", s) is not None` for literal alternatives. -/
def hasAnyWord (pats : List String) (s : String) : Bool :=
  pats.any (fun p => findWordAux p.toList Option.none s.toList)

/-- The affirmative alternatives of `_parse_confirmation` (tools_executor.py:48). -/
def yesPatterns : List String :=
  ["yes", "y", "confirm", "approved", "ok", "okay", "sure", "do it",
   "go ahead", "proceed", "send it"]

/-- The negative alternatives of `_parse_confirmation` (tools_executor.py:52). -/
def noPatterns : List String :=
  ["no", "n", "cancel", "stop", "dont", "don't", "nevermind", "never mind"]

/-- Parsed confirmation decision. -/
inductive Dec where
  | yes
  | no
  | unknown
deriving Repr, DecidableEq

/-- `_parse_confirmation` (tools_executor.py:44-55): lowercase and strip the
reply, test the affirmative word patterns first, then the negative ones. -/
def parseConfirmation (raw : String) : Dec × String :=
  let lowered := pyLower (pyStrip raw)
  if hasAnyWord yesPatterns lowered then (Dec.yes, raw)
  else if hasAnyWord noPatterns lowered then (Dec.no, raw)
  else (Dec.unknown, raw)

example : (parseConfirmation "okay, cancel that").1 = Dec.yes := by decide
example : (parseConfirmation "no").1 = Dec.no := by decide
example : (parseConfirmation "  YES please").1 = Dec.yes := by decide
example : (parseConfirmation "maybe").1 = Dec.unknown := by decide
example : (parseConfirmation "nonsense").1 = Dec.unknown := by decide

/-! ## Durable storage (app/db/pending_actions.py, app/db/pending_intent.py)

One table is a list of rows `(user_id, payload)`; the `json.dumps` /
`json.loads` round-trip through the `action_json` / `intent_json` column is
modelled by storing the `PyVal` payload itself. -/

/-- A durable table keyed by `user_id`. -/
abbrev Table := List (String × PyVal)

/-- Row-update logic shared by `save_pending_action` and
`save_pending_intent`: `db.query(...).filter(user_id).first()` finds the
first row for this user; if present its payload column is overwritten in
place, otherwise a new row is added. -/
def saveRow : Table → String → PyVal → Table
  | [], u, v => [(u, v)]
  | r :: rs, u, v => if r.1 = u then (u, v) :: rs else r :: saveRow rs u v

/-- Shared lookup logic of `get_pending_action` / `get_pending_intent`:
first row for the user, decoded. -/
def getRow : Table → String → Option PyVal
  | [], _ => Option.none
  | r :: rs, u => if r.1 = u then some r.2 else getRow rs u

/-- Shared delete logic of `clear_pending_action` / `clear_pending_intent`:
delete the first row for the user, if any. -/
def clearRow : Table → String → Table
  | [], _ => []
  | r :: rs, u => if r.1 = u then rs else r :: clearRow rs u

/-- The durable store: the `pending_actions` and `pending_intents` tables. -/
structure Db where
  pendingActions : Table
  pendingIntents : Table

/-- `save_pending_action` (pending_actions.py:5-13). -/
def save_pending_action (db : Db) (u : String) (a : PyVal) : Db :=
  { db with pendingActions := saveRow db.pendingActions u a }

/-- `get_pending_action` (pending_actions.py:15-19). -/
def get_pending_action (db : Db) (u : String) : Option PyVal :=
  getRow db.pendingActions u

/-- `clear_pending_action` (pending_actions.py:21-25). -/
def clear_pending_action (db : Db) (u : String) : Db :=
  { db with pendingActions := clearRow db.pendingActions u }

/-- `save_pending_intent` (pending_intent.py:6-14). -/
def save_pending_intent (db : Db) (u : String) (a : PyVal) : Db :=
  { db with pendingIntents := saveRow db.pendingIntents u a }

/-- `get_pending_intent` (pending_intent.py:16-20). -/
def get_pending_intent (db : Db) (u : String) : Option PyVal :=
  getRow db.pendingIntents u

/-- `clear_pending_intent` (pending_intent.py:22-26). -/
def clear_pending_intent (db : Db) (u : String) : Db :=
  { db with pendingIntents := clearRow db.pendingIntents u }

/-! ## Confirmation handler (app/agent/tools_executor.py) -/

/-- An irreversible external call performed by the confirmation handler:
these are the only places `create_event`, `send_email`, `update_event`,
`delete_event` are invoked in tools_executor.py. -/
inductive GEffect where
  | createEvent (summary startIso endIso attendees description : PyVal)
  | sendEmail (toEmail subject body : PyVal)
  | updateEvent (eventId : String) (patch : PyVal)
  | deleteEvent (eventId : String)

/-- Responses of the external Google services, supplied adversarially:
the dicts returned by `create_event` / `send_email` / `update_event`, and
the per-id failure message (already formatted as
`f"{type(e).__name__}: {str(e)}"`) of `delete_event`. -/
structure Gsvc where
  createRes : PyVal
  sendRes : PyVal
  updateRes : PyVal
  deleteErr : String → Option String

/-- The in-memory agent-state fields a tool handler reads or writes. -/
structure ExecSt where
  userId : String
  memories : PyVal
  pendingAction : Option PyVal
  pendingIntent : Option PyVal

/-- A tool handler's observable behaviour: its returned result dict (or
the exception it raises, pre-formatted as `execute_tools` would render
it), the irreversible calls it made, and the updated store and state. -/
structure HOut where
  outcome : Except String PyVal
  effects : List GEffect
  db : Db
  st : ExecSt

/-- `args.get("raw", "")` fed to `_parse_confirmation`, which evaluates
`(raw or "").strip()`: falsy values collapse to the empty string, truthy
non-strings would raise `AttributeError` inside the handler. -/
def confRawString (args : PyVal) : Except String String :=
  match pyOr (dictGetD args "raw" (.str "")) (.str "") with
  | .str s => .ok s
  | _ => .error "AttributeError: strip"

/-- The decision `_tool_handle_confirmation` derives from its args
(tools_executor.py:171). -/
def confDecision (args : PyVal) : Except String Dec :=
  (confRawString args).map (fun s => (parseConfirmation s).1)

/-- `pending.get("type")` compared against the discriminant strings. -/
def pendingTypeStr (pending : PyVal) : Option String :=
  match dictGet pending "type" with
  | some (.str s) => some s
  | _ => Option.none

/-- `_clear_pending_intent_safe` (tools_executor.py:142-151): clear the
durable row and the in-memory field. -/
def clearPendingIntentSafe (st : ExecSt) (db : Db) : Db × ExecSt :=
  (clear_pending_intent db st.userId, { st with pendingIntent := Option.none })

/-- `_safe_clear_pending_action` (tools_executor.py:154-162). -/
def safeClearPendingAction (st : ExecSt) (db : Db) : Db × ExecSt :=
  (clear_pending_action db st.userId, { st with pendingAction := Option.none })

/-- `(payload.get(k) or "").strip()` — the event-id extraction of the
pending-update branch; truthy non-strings would raise. -/
def getStrippedStr (payload : PyVal) (k : String) : Except String String :=
  match pyOr (dictGetD payload k .none) (.str "") with
  | .str s => .ok (pyStrip s)
  | _ => .error "AttributeError: strip"

/-- The per-id loop of the `calendar_delete_many` branch
(tools_executor.py:250-258): each id is stripped and `delete_event` is
always invoked; its failure is caught and recorded per id. -/
def deleteManyLoop (g : Gsvc) : List PyVal → List GEffect × List PyVal
  | [] => ([], [])
  | x :: xs =>
    let eid2 := match x with | .str s => pyStrip s | _ => ""
    let (effs, ress) := deleteManyLoop g xs
    let entry := match g.deleteErr eid2 with
      | Option.none => PyVal.dict [("id", .str eid2), ("ok", .bool true)]
      | some m => PyVal.dict [("id", .str eid2), ("ok", .bool false), ("error", .str m)]
    (.deleteEvent eid2 :: effs, entry :: ress)

/-- The `decision == "yes"` arm of `_tool_handle_confirmation`
(tools_executor.py:193-263): dispatch on the pending action's type and
perform it. -/
def handleConfirmationYes (st : ExecSt) (db : Db) (pending : PyVal) (g : Gsvc) : HOut :=
  let cleared := safeClearPendingAction st db
  if pendingTypeStr pending = some "calendar_create" then
    match dictGetD pending "payload" (.dict []) with
    | .dict kvs =>
      let payload := PyVal.dict kvs
      match dictGet payload "start_iso" with
      | Option.none => ⟨.error "KeyError: 'start_iso'", [], db, st⟩
      | some si =>
        match dictGet payload "end_iso" with
        | Option.none => ⟨.error "KeyError: 'end_iso'", [], db, st⟩
        | some ei =>
          ⟨.ok (.dict [("tool", .str "calendar_create"), ("ok", .bool true),
              ("result", .dict [("id", dictGetD g.createRes "id" .none),
                ("htmlLink", dictGetD g.createRes "htmlLink" .none)])]),
           [.createEvent (dictGetD payload "summary" (.str "Event")) si ei
              (dictGetD payload "attendees" .none) (dictGetD payload "description" .none)],
           cleared.1, cleared.2⟩
    | _ => ⟨.error "AttributeError: get", [], db, st⟩
  else if pendingTypeStr pending = some "gmail_send" then
    match dictGetD pending "payload" (.dict []) with
    | .dict kvs =>
      let payload := PyVal.dict kvs
      match dictGet payload "to_email" with
      | Option.none => ⟨.error "KeyError: 'to_email'", [], db, st⟩
      | some toE =>
        ⟨.ok (.dict [("tool", .str "gmail_send"), ("ok", .bool true),
            ("result", .dict [("id", dictGetD g.sendRes "id" .none)])]),
         [.sendEmail toE (dictGetD payload "subject" (.str "Sentellent Assistant Email"))
            (dictGetD payload "body" (.str ""))],
         cleared.1, cleared.2⟩
    | _ => ⟨.error "AttributeError: get", [], db, st⟩
  else if pendingTypeStr pending = some "calendar_update" then
    match dictGetD pending "payload" (.dict []) with
    | .dict kvs =>
      let payload := PyVal.dict kvs
      match getStrippedStr payload "event_id" with
      | .error e => ⟨.error e, [], db, st⟩
      | .ok eventId =>
        let patch := pyOr (dictGetD payload "patch" .none) (.dict [])
        let patchIsDict := match patch with | .dict _ => true | _ => false
        if eventId = "" || !patchIsDict || !pyTruthy patch then
          ⟨.ok (.dict [("tool", .str "calendar_update_event"), ("ok", .bool false),
              ("error", .str "Pending update payload was invalid.")]),
           [], cleared.1, cleared.2⟩
        else
          ⟨.ok (.dict [("tool", .str "calendar_update_event"), ("ok", .bool true),
              ("result", .dict [("id", dictGetD g.updateRes "id" .none),
                ("htmlLink", dictGetD g.updateRes "htmlLink" .none)])]),
           [.updateEvent eventId patch], cleared.1, cleared.2⟩
    | _ => ⟨.error "AttributeError: get", [], db, st⟩
  else if pendingTypeStr pending = some "calendar_delete_many" then
    match dictGetD pending "payload" (.dict []) with
    | .dict kvs =>
      let payload := PyVal.dict kvs
      let ids := pyOr (dictGetD payload "event_ids" .none) (.list [])
      let valid := match ids with
        | .list xs => xs.all (fun x => match x with
            | .str s => !(pyStrip s == "")
            | _ => false)
        | _ => false
      if !valid then
        ⟨.ok (.dict [("tool", .str "calendar_delete_events"), ("ok", .bool false),
            ("error", .str "Pending delete payload was invalid.")]),
         [], cleared.1, cleared.2⟩
      else
        let xs := match ids with | .list xs => xs | _ => []
        let (effs, ress) := deleteManyLoop g xs
        ⟨.ok (.dict [("tool", .str "calendar_delete_events"), ("ok", .bool true),
            ("result", .list ress)]),
         effs, cleared.1, cleared.2⟩
    | _ => ⟨.error "AttributeError: get", [], db, st⟩
  else
    ⟨.ok (.dict [("tool", .str "handle_confirmation"), ("ok", .bool false),
        ("error", .str ("Unknown pending action type: "
          ++ pyFormat (dictGetD pending "type" .none)))]),
     [], cleared.1, cleared.2⟩

/-- `_tool_handle_confirmation` (tools_executor.py:168-263). `svc = none`
models `_with_google_services_safe` raising (e.g. Google not connected);
the raise only happens on the `yes` path, as in the source. -/
def handleConfirmation (st : ExecSt) (db : Db) (args : PyVal) (svc : Option Gsvc) : HOut :=
  match confDecision args with
  | .error e => ⟨.error e, [], db, st⟩
  | .ok decision =>
    match get_pending_action db st.userId with
    | Option.none =>
      let cleared := clearPendingIntentSafe { st with pendingAction := Option.none } db
      ⟨.ok (.dict [("tool", .str "handle_confirmation"), ("ok", .bool true),
          ("result", .str "No pending action anymore (already handled in another tab)."),
          ("already_handled", .bool true)]),
       [], cleared.1, cleared.2⟩
    | some pending =>
      if decision = Dec.unknown then
        ⟨.ok (.dict [("tool", .str "handle_confirmation"), ("ok", .bool false),
            ("error", .str "Please reply with 'yes' or 'no'.")]), [], db, st⟩
      else if decision = Dec.no then
        let c1 := safeClearPendingAction st db
        let c2 := clearPendingIntentSafe c1.2 c1.1
        ⟨.ok (.dict [("tool", .str "handle_confirmation"), ("ok", .bool true),
            ("result", .str "Cancelled pending action.")]), [], c2.1, c2.2⟩
      else
        match svc with
        | Option.none =>
          ⟨.error "RuntimeError: Google not connected. Go to /auth/google/start?user_id=... first.",
           [], db, st⟩
        | some g => handleConfirmationYes st db pending g

/-! ## The no-meetings-before preference gate (tools_executor.py:58-107) -/

/-- Value of a nonempty all-digit char list. -/
def digitsVal (cs : List Char) : Option Nat :=
  if !cs.isEmpty && cs.all (·.isDigit) then
    some (cs.foldl (fun a c => a * 10 + (c.toNat - 48)) 0)
  else Option.none

/-- Python `int(str)`: surrounding whitespace tolerated, optional sign,
then decimal digits (underscore grouping is not used by this code base). -/
def pyIntParse (s : String) : Option Int :=
  match listStrip isPySpace s.toList with
  | '-' :: rest => (digitsVal rest).map (fun n => -(n : Int))
  | '+' :: rest => (digitsVal rest).map (fun n => (n : Int))
  | rest => (digitsVal rest).map (fun n => (n : Int))

/-- Python `s.split(sep)` for a single-character separator. -/
def splitOnChar (c : Char) : List Char → List (List Char)
  | [] => [[]]
  | x :: xs =>
    match splitOnChar c xs with
    | [] => [[x]]
    | h :: t => if x = c then [] :: h :: t else (x :: h) :: t

/-- `_no_meetings_before_minutes` (tools_executor.py:68-86): read the
`no_meetings_before` preference from the hydrated memories, parse it as
`HH:MM`, and return minutes past midnight; any malformed value is `None`. -/
def noMeetingsBeforeMinutes (st : ExecSt) : Option Nat :=
  let mem := pyOr st.memories (.dict [])
  match mem with
  | .dict _ =>
    let v := dictGetD mem "no_meetings_before" .none
    if !pyTruthy v then Option.none
    else
      match splitOnChar ':' (listStrip isPySpace (pyFormat v).toList) with
      | [hh, mm] =>
        match pyIntParse (String.mk hh), pyIntParse (String.mk mm) with
        | some hi, some mi =>
          if 0 ≤ hi ∧ hi ≤ 23 ∧ 0 ≤ mi ∧ mi ≤ 59 then
            some (hi.toNat * 60 + mi.toNat)
          else Option.none
        | _, _ => Option.none
      | _ => Option.none
  | _ => Option.none

/-- `s.replace("Z", "+00:00")` as done by `_parse_iso_dt`. -/
def replaceZ : List Char → List Char
  | [] => []
  | c :: rest =>
    if c = 'Z' then '+' :: '0' :: '0' :: ':' :: '0' :: '0' :: replaceZ rest
    else c :: replaceZ rest

/-- Two decimal digits. -/
def twoDigits (a b : Char) : Option Nat :=
  if a.isDigit && b.isDigit then some ((a.toNat - 48) * 10 + (b.toNat - 48))
  else Option.none

def isLeapYear (y : Nat) : Bool := (y % 4 = 0 && y % 100 ≠ 0) || y % 400 = 0

def daysInMonth (y m : Nat) : Nat :=
  if m = 2 then (if isLeapYear y then 29 else 28)
  else if m = 4 || m = 6 || m = 9 || m = 11 then 30
  else 31

/-- `[:SS]` tail of a UTC offset. -/
def validOffsetTail : List Char → Bool
  | [] => true
  | [':', a, b] => ((twoDigits a b).map (fun v => decide (v ≤ 59))).getD false
  | _ => false

/-- A `±HH:MM[:SS]` UTC offset (or nothing), as `datetime.fromisoformat`
accepts after the time. -/
def validOffset : List Char → Bool
  | [] => true
  | sgn :: h1 :: h2 :: ':' :: m1 :: m2 :: rest =>
    (sgn = '+' || sgn = '-')
      && ((twoDigits h1 h2).map (fun v => decide (v ≤ 23))).getD false
      && ((twoDigits m1 m2).map (fun v => decide (v ≤ 59))).getD false
      && validOffsetTail rest
  | _ => false

/-- After `:SS`, an optional fractional part then an optional offset. -/
def afterSecondsTail (r : List Char) : Bool :=
  match r with
  | '.' :: r2 => !(r2.takeWhile Char.isDigit).isEmpty && validOffset (r2.dropWhile Char.isDigit)
  | r => validOffset r

/-- After `HH:MM`: optional `:SS[.frac]`, then an optional offset. -/
def validTimeTail : List Char → Bool
  | ':' :: a :: b :: r => ((twoDigits a b).map (fun v => decide (v ≤ 59))).getD false && afterSecondsTail r
  | r => validOffset r

/-- `datetime.fromisoformat`, restricted to the full date-time shapes the
agent passes around (`YYYY-MM-DD<sep>HH:MM[:SS[.frac]][±HH:MM[:SS]]`),
returning the wall-clock `(hour, minute)` — exactly what
`_violates_no_meetings_before` reads off the parsed datetime. -/
def fromisoformatHM : List Char → Option (Nat × Nat)
  | y1 :: y2 :: y3 :: y4 :: '-' :: m1 :: m2 :: '-' :: d1 :: d2 :: _sep
      :: h1 :: h2 :: ':' :: n1 :: n2 :: rest =>
    match digitsVal [y1, y2, y3, y4], twoDigits m1 m2, twoDigits d1 d2,
        twoDigits h1 h2, twoDigits n1 n2 with
    | some y, some mo, some dy, some h, some n =>
      if 1 ≤ mo && mo ≤ 12 && 1 ≤ dy && dy ≤ daysInMonth y mo
          && h ≤ 23 && n ≤ 59 && validTimeTail rest then
        some (h, n)
      else Option.none
    | _, _, _, _, _ => Option.none
  | _ => Option.none

/-- `_parse_iso_dt` (tools_executor.py:58-65), projected to the hour and
minute fields that the preference check uses. -/
def parseIsoDt (s : String) : Option (Nat × Nat) :=
  if s == "" then Option.none
  else fromisoformatHM (replaceZ s.toList)

/-- `_parse_iso_dt` on an embedded value: falsy values short-circuit to
`None`, truthy non-strings raise inside the `try` and also give `None`. -/
def parseIsoDtV : PyVal → Option (Nat × Nat)
  | .str s => parseIsoDt s
  | _ => Option.none

/-- `_violates_no_meetings_before` (tools_executor.py:89-107): returns
`(violates, str(pref))`. -/
def violatesNoMeetingsBefore (st : ExecSt) (startIso : PyVal) : Bool × Option String :=
  match noMeetingsBeforeMinutes st with
  | Option.none => (false, Option.none)
  | some limit =>
    match parseIsoDtV startIso with
    | Option.none => (false, Option.none)
    | some (h, m) =>
      if h * 60 + m < limit then
        (true, some (pyFormat (dictGetD (pyOr st.memories (.dict [])) "no_meetings_before" .none)))
      else (false, Option.none)

example : parseIsoDt "2026-01-20T08:30:00+05:30" = some (8, 30) := by decide
example : parseIsoDt "2026-01-20 22:00" = some (22, 0) := by decide
example : parseIsoDt "2026-01-20T08:30:00Z" = some (8, 30) := by decide
example : parseIsoDt "garbage" = Option.none := by decide

/-- `_tool_calendar_prepare_event_gated` (tools_executor.py:304-348).
`svcOk = false` models `_with_google_services_safe` raising; `conflicts`
is the external `freebusy_conflicts` response. -/
def toolCalendarPrepareEvent (st : ExecSt) (db : Db) (args : PyVal)
    (svcOk : Bool) (conflicts : PyVal) : HOut :=
  if !svcOk then
    ⟨.error "RuntimeError: Google not connected. Go to /auth/google/start?user_id=... first.",
     [], db, st⟩
  else
    let startIso := dictGetD args "start_iso" .none
    let endIso := dictGetD args "end_iso" .none
    if !pyTruthy startIso || !pyTruthy endIso then
      ⟨.ok (.dict [("tool", .str "calendar_prepare_event"), ("ok", .bool false),
          ("error", .str "Missing start_iso or end_iso.")]), [], db, st⟩
    else
      let viol := violatesNoMeetingsBefore st startIso
      if viol.1 then
        let cleared := clearPendingIntentSafe st db
        ⟨.ok (.dict [("tool", .str "calendar_prepare_event"), ("ok", .bool false),
            ("error", .str ("Start time violates your preference: no meetings before "
              ++ viol.2.getD "" ++ ". Please pick a later time."))]),
         [], cleared.1, cleared.2⟩
      else
        let summary := dictGetD args "summary" (.str "Event")
        let attendees := dictGetD args "attendees" .none
        let description := dictGetD args "description" .none
        let p0 := [("summary", summary), ("start_iso", startIso), ("end_iso", endIso)]
        let p1 := if pyTruthy attendees then p0 ++ [("attendees", attendees)] else p0
        let p2 := if pyTruthy description then p1 ++ [("description", description)] else p1
        let p3 := if pyTruthy conflicts then p2 ++ [("conflicts", conflicts)] else p2
        let pending := PyVal.dict [("type", .str "calendar_create"), ("payload", .dict p3)]
        let db1 := save_pending_action db st.userId pending
        let cleared := clearPendingIntentSafe st db1
        ⟨.ok (.dict [("tool", .str "calendar_prepare_event"), ("ok", .bool true),
            ("result", .dict [("conflicts", conflicts), ("pending", .bool true)])]),
         [], cleared.1, { cleared.2 with pendingAction := some pending }⟩

/-- `_tool_calendar_update_event_gated` (tools_executor.py:365-396). -/
def toolCalendarUpdateEvent (st : ExecSt) (db : Db) (args : PyVal)
    (svcOk : Bool) : HOut :=
  if !svcOk then
    ⟨.error "RuntimeError: Google not connected. Go to /auth/google/start?user_id=... first.",
     [], db, st⟩
  else
    match getStrippedStr args "event_id" with
    | .error e => ⟨.error e, [], db, st⟩
    | .ok eventId =>
      let patch := dictGetD args "patch" .none
      let patchIsDict := match patch with | .dict _ => true | _ => false
      if eventId = "" then
        ⟨.ok (.dict [("tool", .str "calendar_update_event"), ("ok", .bool false),
            ("error", .str "Missing event_id.")]), [], db, st⟩
      else if !patchIsDict || !pyTruthy patch then
        ⟨.ok (.dict [("tool", .str "calendar_update_event"), ("ok", .bool false),
            ("error", .str "Missing patch object.")]), [], db, st⟩
      else
        let startV := dictGetD patch "start" .none
        let startIsDict := match startV with | .dict _ => true | _ => false
        let startDT := dictGetD startV "dateTime" .none
        if startIsDict && pyTruthy startDT then
          let viol := violatesNoMeetingsBefore st (.str (pyFormat startDT))
          if viol.1 then
            let cleared := clearPendingIntentSafe st db
            ⟨.ok (.dict [("tool", .str "calendar_update_event"), ("ok", .bool false),
                ("error", .str ("Updated start time violates your preference: no meetings before "
                  ++ viol.2.getD "" ++ "."))]),
             [], cleared.1, cleared.2⟩
          else
            let pending := PyVal.dict [("type", .str "calendar_update"),
              ("payload", .dict [("event_id", .str eventId), ("patch", patch)])]
            let db1 := save_pending_action db st.userId pending
            let cleared := clearPendingIntentSafe st db1
            ⟨.ok (.dict [("tool", .str "calendar_update_event"), ("ok", .bool true),
                ("result", .str "Pending confirmation to update event.")]),
             [], cleared.1, { cleared.2 with pendingAction := some pending }⟩
        else
          let pending := PyVal.dict [("type", .str "calendar_update"),
            ("payload", .dict [("event_id", .str eventId), ("patch", patch)])]
          let db1 := save_pending_action db st.userId pending
          let cleared := clearPendingIntentSafe st db1
          ⟨.ok (.dict [("tool", .str "calendar_update_event"), ("ok", .bool true),
              ("result", .str "Pending confirmation to update event.")]),
           [], cleared.1, { cleared.2 with pendingAction := some pending }⟩

/-! ## Tool dispatch (tools_executor.py:460-501) -/

/-- The keys of `TOOL_REGISTRY` (tools_executor.py:460-470). -/
def registryNames : List String :=
  ["handle_confirmation", "gmail_list_important", "gmail_send",
   "calendar_prepare_event", "calendar_list_events", "calendar_update_event",
   "calendar_delete_events", "calendar_get_event", "memory_upsert"]

/-- Behaviour of the handler invoked for one plan entry, supplied
adversarially: either the result dict it returns, or the exception
(class name and message) it raises into `execute_tools`' `try`. -/
inductive HOutcome where
  | ret (r : PyVal)
  | exn (n msg : String)

/-- `TOOL_REGISTRY.get(tool)` succeeding: the identifier is a string among
the registered names. -/
def isKnownTool (tv : PyVal) : Bool :=
  match tv with
  | .str s => registryNames.contains s
  | _ => false

/-- One iteration of the `execute_tools` loop (tools_executor.py:478-497):
unknown tools yield an `ok=False` result with an `Unknown tool:` error;
a raising handler is caught and converted to an `ok=False` result. -/
def dispatchOne (oracle : Nat → HOutcome) (i : Nat) (call : PyVal) : PyVal :=
  let toolV := dictGetD call "tool" .none
  if !isKnownTool toolV then
    .dict [("tool", toolV), ("ok", .bool false),
      ("error", .str ("Unknown tool: " ++ pyFormat toolV))]
  else
    match oracle i with
    | .ret r => r
    | .exn n m => .dict [("tool", toolV), ("ok", .bool false),
        ("error", .str (n ++ ": " ++ m))]

/-- The result list accumulated by the `execute_tools` loop, one entry per
plan element, in plan order. -/
def executeToolsResults (oracle : Nat → HOutcome) : Nat → List PyVal → List PyVal
  | _, [] => []
  | i, c :: cs => dispatchOne oracle i c :: executeToolsResults oracle (i + 1) cs

/-- The two result collections `execute_tools` writes back into the state. -/
structure ToolsState where
  toolResults : List PyVal
  lastToolResults : List PyVal

/-- `execute_tools` (tools_executor.py:473-501), restricted to its result
bookkeeping: the batch replaces `last_tool_results` and is appended to the
running `tool_results` history. -/
def execute_tools (ts : ToolsState) (plan : List PyVal) (oracle : Nat → HOutcome) : ToolsState :=
  let rs := executeToolsResults oracle 0 plan
  { toolResults := ts.toolResults ++ rs, lastToolResults := rs }

/-! ## Planner: deterministic delete-by-title branch (planner.py:581-644, 940-1003) -/

/-- Case-insensitive literal prefix match (`p` given lowercase). -/
def lowersPrefix : List Char → List Char → Bool
  | [], _ => true
  | _ :: _, [] => false
  | a :: p', b :: s' => a = lowerChar b && lowersPrefix p' s'

/-- Collapse each whitespace run to a single space (`re.sub(r"\s+", " ", t)`). -/
def collapseWsGo : Bool → List Char → List Char
  | _, [] => []
  | prevWs, c :: rest =>
    if isPySpace c then
      if prevWs then collapseWsGo true rest
      else ' ' :: collapseWsGo true rest
    else c :: collapseWsGo false rest

def collapseWs (s : String) : String := String.mk (collapseWsGo false s.toList)

/-- Try the delete keyword alternation `(?:delete|remove|cancel)` at the
current position (case-insensitive); the three alternatives start with
distinct letters, so at most one can match. -/
def matchKwAt (s : List Char) : Option (List Char) :=
  if lowersPrefix "delete".toList s then some (s.drop 6)
  else if lowersPrefix "remove".toList s then some (s.drop 6)
  else if lowersPrefix "cancel".toList s then some (s.drop 6)
  else Option.none

/-- `\s+["\']([^"\']+)["\']` after the keyword: at least one whitespace,
an opening quote of either kind, a nonempty run of non-quote characters,
and a closing quote of either kind. -/
def quotedCapture (tail : List Char) : Option String :=
  match tail.dropWhile isPySpace with
  | q :: rest =>
    if (q = '"' || q = '\'') && !tail.isEmpty && isPySpace (tail.headD 'x') then
      let content := rest.takeWhile (fun c => !(c = '"' || c = '\''))
      match rest.dropWhile (fun c => !(c = '"' || c = '\'')) with
      | _ :: _ => if content.isEmpty then Option.none else some (String.mk content)
      | [] => Option.none
    else Option.none
  | [] => Option.none

/-- `re.search(r'(?:delete|remove|cancel)\s+["\']([^"\']+)["\']', t, I)`:
leftmost occurrence wins; yields `m.group(1)`. -/
def searchKwQuoted : List Char → Option String
  | [] => Option.none
  | s@(_ :: rest) =>
    match matchKwAt s with
    | some tail =>
      match quotedCapture tail with
      | some cap => some cap
      | Option.none => searchKwQuoted rest
    | Option.none => searchKwQuoted rest

/-- `re.search(r"(?:delete|remove|cancel)\s+(.+)$", t, I)`: leftmost
keyword followed by whitespace and at least one further character; after
the source's `.strip()`, the capture is the stripped remainder. -/
def searchKwRest : List Char → Option String
  | [] => Option.none
  | s@(_ :: rest) =>
    match matchKwAt s with
    | some tail =>
      if 2 ≤ tail.length && isPySpace (tail.headD 'x') then
        some (pyStrip (String.mk tail))
      else searchKwRest rest
    | Option.none => searchKwRest rest

/-- The stop words of the splitting regex
`re.split(r"\b(which|that|scheduled|tomorrow|today|on)\b", cand, 1, I)`. -/
def stopWords : List String :=
  ["which", "that", "scheduled", "tomorrow", "today", "on"]

/-- Does a stop word match at this position, with word boundaries? -/
def stopAt (prev : Option Char) (s : List Char) : Bool :=
  boundaryOk prev && stopWords.any (fun w =>
    lowersPrefix w.toList s && nextNonWord (s.drop w.length))

/-- The part of the candidate before the first stop-word match
(`re.split(...)[0]`; the whole string when no stop word occurs). -/
def splitBeforeStop : Option Char → List Char → List Char
  | _, [] => []
  | prev, c :: rest =>
    if stopAt prev (c :: rest) then []
    else c :: splitBeforeStop (some c) rest

/-- `_extract_delete_title` (planner.py:581-600). A `some ""` result (an
all-whitespace quoted title) is falsy for the caller's `if del_title:`. -/
def extractDeleteTitle (raw : String) : Option String :=
  let t := pyStrip raw
  let low := pyLower t
  if !(strContainsSub low "delete" || strContainsSub low "remove"
      || strContainsSub low "cancel") then
    Option.none
  else
    match searchKwQuoted t.toList with
    | some cap => some (pyStrip cap)
    | Option.none =>
      match searchKwRest t.toList with
      | some cand0 =>
        let c1 := pyStrip (String.mk (splitBeforeStop Option.none cand0.toList))
        let c2 := pyStripChars [' ', '.', ',', '!', '?', ':', ';'] c1
        if !(c2 == "") then some c2 else Option.none
      | Option.none => Option.none

/-- Keep only the dict-shaped entries of a result list. -/
def dictsOf (xs : List PyVal) : List PyVal :=
  xs.filter (fun e => match e with | .dict _ => true | _ => false)

/-- Walk `tool_results` from most recent to oldest (the `batches[::-1]`
loop body of `_events_from_last_tool_results`). -/
def eventsFromLTRGo : List PyVal → List PyVal
  | [] => []
  | item :: rest =>
    let skip := eventsFromLTRGo rest
    match item with
    | .dict _ =>
      let toolIs := match dictGet item "tool" with
        | some (.str s) => s = "calendar_list_events"
        | _ => false
      let okIsTrue := match dictGet item "ok" with
        | some (.bool true) => true
        | _ => false
      if toolIs && okIsTrue then
        match dictGet item "result" with
        | some (.list xs) =>
          let out := dictsOf xs
          if !out.isEmpty then out else skip
        | some (.dict kvs) =>
          match dictGet (.dict kvs) "items" with
          | some (.list xs) =>
            let out := dictsOf xs
            if !out.isEmpty then out else skip
          | _ => skip
        | _ => skip
      else skip
    | _ => skip

/-- `_events_from_last_tool_results` (planner.py:602-625): the event list
of the most recent successful `calendar_list_events` result. -/
def eventsFromLastToolResults (toolResults : List PyVal) : List PyVal :=
  eventsFromLTRGo toolResults.reverse

/-- `_match_events_by_title` (planner.py:627-644): normalised equality or
substring match of the requested title against each event's summary. -/
def matchEventsByTitle (events : List PyVal) (title : String) : List PyVal :=
  if title == "" then []
  else
    let t := collapseWs (pyLower (pyStrip title))
    events.filter (fun e =>
      let sv := pyOr (pyOr (dictGetD e "summary" .none) (dictGetD e "title" .none)) (.str "")
      match sv with
      | .str s0 =>
        let s := collapseWs (pyLower (pyStrip s0))
        !(s == "") && (s == t || strContainsSub s t)
      | _ => false)

/-- Planner output fields written by the delete-by-title branch (the
`pending_intent_out` timestamp payload is not modelled; only the
save/clear opcode is). -/
structure PlanOut where
  plan : List PyVal
  needsMore : Bool
  response : String
  pendingIntentOp : Option String

/-- `(hits[0].get("id") or "").strip()` (planner.py:947); list results carry
string ids, a truthy non-string would raise on `.strip()`. -/
def eidOf (e : PyVal) : String :=
  match pyOr (dictGetD e "id" .none) (.str "") with
  | .str s => pyStrip s
  | _ => ""

/-- One enumerated candidate line `f"- {s} ({st} → {en})"` (planner.py:958-969). -/
def optLine (e : PyVal) : String :=
  let s := pyFormat (pyOr (dictGetD e "summary" .none) (.str "(no title)"))
  let ss := dictGetD e "start" .none
  let st := match ss with
    | .dict _ => pyFormat (pyOr (pyOr (dictGetD ss "dateTime" .none) (dictGetD ss "date" .none)) (.str ""))
    | _ => ""
  let ee := dictGetD e "end" .none
  let en := match ee with
    | .dict _ => pyFormat (pyOr (pyOr (dictGetD ee "dateTime" .none) (dictGetD ee "date" .none)) (.str ""))
    | _ => ""
  "- " ++ s ++ " (" ++ st ++ " → " ++ en ++ ")"

/-- The deterministic delete-by-title branch of `planner`
(planner.py:940-1003). `raw` is the stripped user input; `tomorrowWin` is
the `_tomorrow_window_iso()` pair (a function of the wall clock, passed in
as a parameter). `none` means the branch is skipped (no delete title was
extracted) and the planner continues below it. -/
def plannerDeleteBranch (raw : String) (toolResults : List PyVal)
    (tomorrowWin : String × String) : Option PlanOut :=
  let low := pyLower raw
  match extractDeleteTitle raw with
  | Option.none => Option.none
  | some delTitle =>
    if delTitle == "" then Option.none
    else
      let events := eventsFromLastToolResults toolResults
      let hits := matchEventsByTitle events delTitle
      let afterMatches : PlanOut :=
        if strContainsSub low "tomorrow" then
          let listCall := PyVal.dict [("tool", .str "calendar_list_events"),
            ("args", .dict [("time_min", .str tomorrowWin.1),
              ("time_max", .str tomorrowWin.2), ("max_results", .int 50)])]
          { plan := [listCall], needsMore := false, response := "",
            pendingIntentOp := some "save" }
        else
          let resp := "I can’t find that event yet. Say “list my meetings tomorrow” first, then tell me which one to delete."
          { plan := [], needsMore := true, response := resp,
            pendingIntentOp := some "save" }
      match hits with
      | [e] =>
        let eid := eidOf e
        let summary := pyOr (dictGetD e "summary" .none) (.str delTitle)
        if !(eid == "") then
          let delCall := PyVal.dict [("tool", .str "calendar_delete_events"),
            ("args", .dict [("event_ids", .list [.str eid]),
              ("summaries", .list [.str (pyFormat summary)])])]
          some { plan := [delCall], needsMore := false, response := "",
                 pendingIntentOp := some "clear" }
        else some afterMatches
      | _ :: _ :: _ =>
        let resp := "Which one should I delete?\n"
          ++ String.intercalate "\n" ((hits.take 5).map optLine)
        some { plan := [], needsMore := true, response := resp,
               pendingIntentOp := some "save" }
      | [] => some afterMatches

example : extractDeleteTitle "delete Standup tomorrow" = some "Standup" := by decide
example : extractDeleteTitle "remove 'Team Sync'" = some "Team Sync" := by decide
example : extractDeleteTitle "hello" = Option.none := by decide

/-! ## Static security check (security_check.py) and sandbox (sandbox_runner.py)

Generated code is embedded post-parse, as the syntax tree `ast.parse`
produces (the fragments examined here are syntactically well formed; a
parse failure would likewise only set `code_error`).  `ast.walk` visits
breadth-first; the check's recorded message is order-dependent only when a
fragment holds several violations, and the fragments below hold at most
one, for which both orders agree. -/

/-- Python expressions, restricted to the node kinds `security_check`
inspects plus constants. -/
inductive PyExpr where
  | name (id : String)
  | attrOf (v : PyExpr) (a : String)
  | call (f : PyExpr) (args : List PyExpr)
  | strConst (s : String)
  | numConst (n : Int)

/-- Python statements, restricted likewise. `importStmt` carries the
dotted names of its aliases; `importFrom` the (optional) module. -/
inductive PyStmt where
  | importStmt (names : List String)
  | importFrom (module : Option String)
  | exprStmt (e : PyExpr)
  | assign (target : String) (e : PyExpr)

abbrev PyMod := List PyStmt

/-- `ALLOWED_IMPORT_ROOTS` (security_check.py:6-11). -/
def allowedImportRoots : List String := ["json", "datetime", "pytz", "dateparser"]

/-- `BANNED_CALLS` (security_check.py:13-16). -/
def bannedCalls : List String := ["open", "eval", "exec", "compile", "__import__", "input"]

/-- `(alias.name or "").split(".")[0]`. -/
def importRoot (nm : String) : String :=
  String.mk (nm.toList.takeWhile (fun c => !(c = '.')))

/-- First offending alias of an `import` statement, with the message the
source records (security_check.py:37-42). -/
def firstViolImport : List String → Option String
  | [] => Option.none
  | nm :: rest =>
    let root := importRoot nm
    if !allowedImportRoots.contains root then
      some ("Security violation: import " ++ root ++ " is not allowed.")
    else firstViolImport rest

mutual

/-- First violation in an expression subtree: banned call targets
(security_check.py:51-54) and dunder attribute access
(security_check.py:57-60, the `BANNED_ATTR_PREFIXES = {"__"}` test). -/
def exprViolation : PyExpr → Option String
  | .name _ => Option.none
  | .strConst _ => Option.none
  | .numConst _ => Option.none
  | .attrOf v a =>
    if "__".toList.isPrefixOf a.toList then
      some "Security violation: dunder attribute access is not allowed."
    else exprViolation v
  | .call f args =>
    let callMsg : Option String :=
      match f with
      | .name id =>
        if bannedCalls.contains id then
          some ("Security violation: call to " ++ id ++ " is not allowed.")
        else Option.none
      | _ => Option.none
    callMsg <|> (exprViolation f <|> exprListViolation args)

def exprListViolation : List PyExpr → Option String
  | [] => Option.none
  | e :: es => exprViolation e <|> exprListViolation es

end

/-- First violation in one statement. -/
def stmtViolation : PyStmt → Option String
  | .importStmt names => firstViolImport names
  | .importFrom module =>
    let root := importRoot (module.getD "")
    if !allowedImportRoots.contains root then
      some ("Security violation: from " ++ root ++ " import ... is not allowed.")
    else Option.none
  | .exprStmt e => exprViolation e
  | .assign _ e => exprViolation e

/-- First violation in the module (the `ast.walk` scan of
security_check.py:35-60). -/
def moduleViolation : PyMod → Option String
  | [] => Option.none
  | st :: rest => stmtViolation st <|> moduleViolation rest

/-- The slice of the agent state the codegen/security/sandbox lane reads
and writes, with generated code held post-parse. `generatedCode = none`
models `(state.get("generated_code") or "").strip()` being empty. -/
structure SecState where
  generatedCode : Option PyMod
  codeError : Option String
  codeResult : Option PyVal
  codeAttempts : Nat

/-- `security_check` (security_check.py:23-62): record the first policy
violation (or the absence of code) in `code_error`; the fragment itself is
left in place and nothing else is changed. -/
def security_check (s : SecState) : SecState :=
  match s.generatedCode with
  | Option.none => { s with codeError := some "No code generated." }
  | some m =>
    match moduleViolation m with
    | some msg => { s with codeError := some msg }
    | Option.none => s

/-- Outcome of the spawned subprocess, supplied adversarially: parsed
JSON output on success, or the error text (`stderr`, non-JSON output,
timeout, ...) recorded on failure. -/
inductive SandboxOutcome where
  | ok (res : Option PyVal)
  | fail (err : String)

/-- `sandbox_run` (sandbox_runner.py:9-54). The returned `Bool` is true
exactly when the subprocess is spawned (the `subprocess.run` call at
line 26 is reached).  Note lines 18-19: any previously recorded
`code_error` — including a security violation — is reset to `None`
before the fragment is executed. -/
def sandbox_run (s : SecState) (outcome : SandboxOutcome) : SecState × Bool :=
  let s1 := { s with codeAttempts := s.codeAttempts + 1 }
  match s.generatedCode with
  | Option.none => ({ s1 with codeError := some "No generated_code to run." }, false)
  | some _ =>
    let s2 := { s1 with codeError := Option.none, codeResult := Option.none }
    match outcome with
    | .ok res => ({ s2 with codeResult := res }, true)
    | .fail e => ({ s2 with codeError := some e }, true)

/-- The unconditional `security → sandbox` wiring of the orchestration
graph (graph.py:205 `graph.add_edge("security", "sandbox")`): the sandbox
node runs on whatever state the security node produced. -/
def securityThenSandbox (s : SecState) (outcome : SandboxOutcome) : SecState × Bool :=
  sandbox_run (security_check s) outcome

/-- A generated fragment `import os` followed by `print(1)`: its root
module `os` is outside the allow-list. -/
def osImportFragment : PyMod :=
  [.importStmt ["os"], .exprStmt (.call (.name "print") [.numConst 1])]

example : moduleViolation osImportFragment
    = some "Security violation: import os is not allowed." := by decide

/-! ## The orchestration graph (graph.py, checker.py)

The node bodies with external effects (planner LLM heuristics, tool
calls, codegen template rendering, the subprocess) are abstracted as
adversarial choices, constrained to the exact state fields each source
function writes (verified by inspection of every `state[...] =`
assignment): the planner writes only `plan`, `needs_more`, `response`
(and the pending-intent write-back signals, which no modelled function
reads); `execute_tools` writes the two result collections,
`pending_action`, `pending_intent` and `memories`; the codegen lane
writes only the `code_*` fields.  Nothing in the repository ever sets
`time_extraction_needed` or assigns `code_task`, so both keep their
`main.py` initial values. -/

/-- The named stages of the compiled graph (graph.py:176-215). -/
inductive GNode where
  | planner
  | execute
  | check
  | codegen
  | security
  | sandbox
  | respond
deriving Repr, DecidableEq

/-- The agent-state fields read by the routing functions, the checker and
the loop bookkeeping (state.py; fields no modelled function reads are
omitted). -/
structure GSt where
  iterations : Nat
  codeAttempts : Nat
  needsMore : Bool
  fallbackNeeded : Bool
  timeExtractionNeeded : Bool
  response : String
  plan : List PyVal
  lastToolResults : List PyVal
  toolResults : List PyVal
  pendingAction : Option PyVal
  codeTask : Option String
  generatedCode : Option String
  codeError : Option String
  codeResult : Option PyVal
  timeExtractionContext : Option PyVal

/-- `r.get("ok") is False` for one tool result. -/
def okIsFalse (r : PyVal) : Bool :=
  match dictGet r "ok" with
  | some (.bool false) => true
  | _ => false

/-- `(r.get("error") or "").lower().startswith("unknown tool")`
(graph.py:85); tool results only ever carry string errors. -/
def errIsUnknownTool (r : PyVal) : Bool :=
  match pyOr (dictGetD r "error" .none) (.str "") with
  | .str s => "unknown tool".toList.isPrefixOf (pyLower s).toList
  | _ => false

/-- `check_need_more` (checker.py:4-40). -/
def check_need_more (s : GSt) : GSt :=
  if 5 ≤ s.iterations then
    { s with needsMore := false }
  else if s.needsMore && !(pyStrip s.response == "") && s.plan.isEmpty then
    { s with needsMore := false, fallbackNeeded := false }
  else if s.pendingAction.isSome then
    { s with needsMore := false, fallbackNeeded := false }
  else if s.plan.isEmpty && s.toolResults.isEmpty && pyStrip s.response == "" then
    { s with fallbackNeeded := true, needsMore := false }
  else if !s.lastToolResults.isEmpty && s.lastToolResults.any okIsFalse then
    { s with needsMore := true }
  else
    { s with needsMore := false }

/-- `_checker_node` (graph.py:78-89): run `check_need_more`, then force
`fallback_needed` when the whole latest batch failed or any result names
an unknown tool. -/
def checkerNode (s : GSt) : GSt :=
  if !(check_need_more s).lastToolResults.isEmpty
      && ((check_need_more s).lastToolResults.all okIsFalse
          || (check_need_more s).lastToolResults.any errIsUnknownTool) then
    { check_need_more s with fallbackNeeded := true }
  else check_need_more s

/-- `_route_after_check` (graph.py:91-96): `needs_more` is tested before
`fallback_needed`. -/
def routeAfterCheck (s : GSt) : GNode :=
  if s.needsMore then .planner
  else if s.fallbackNeeded then .codegen
  else .respond

def stuckMsg : String := "I got stuck. Please try rephrasing or provide an exact date/time."

def noSafeActionMsg : String :=
  "I couldn’t figure out a safe action to take. Try being explicit, e.g.:\n- `Show my events tomorrow`\n- `Schedule 'Sentellent sync' on 2026-01-20 22:00 for 30 minutes`\n- `Send email to x@y.com subject ... body ...`"

/-- The hard-stop branch of `_planner_node` (graph.py:22-28), taken when
the iteration counter has reached 5. -/
def plannerHardStop (s : GSt) : GSt :=
  { s with
      needsMore := false,
      fallbackNeeded := false,
      response := if pyStrip s.response == "" then stuckMsg else s.response }

/-- `_route_after_planner` (graph.py:40-67); the empty-plan branch writes
a response before routing. -/
def routeAfterPlanner (s : GSt) : GNode × GSt :=
  if s.needsMore && !(pyStrip s.response == "") then (.respond, s)
  else if s.timeExtractionNeeded then (.codegen, s)
  else if s.plan.isEmpty && !(pyStrip s.response == "") then (.respond, s)
  else if s.plan.isEmpty then (.respond, { s with response := noSafeActionMsg })
  else (.execute, s)

/-- `dynamic_codegen` (dynamic_codegen.py:4-62) at the graph level: the
rendered dateparser template (a function of the extraction context) is
passed in as `tmpl`; an unsupported task records an error and leaves no
code. -/
def dynamicCodegen (tmpl : String) (s : GSt) : GSt :=
  let s0 := { s with
      generatedCode := Option.none,
      codeError := Option.none,
      codeResult := Option.none }
  if s.codeTask = some "extract_datetime" then
    { s0 with generatedCode := some tmpl }
  else
    { s0 with codeError := some ("Unsupported code_task: "
        ++ (match s.codeTask with | some t => t | Option.none => "None")) }

def extractFailMsg : String :=
  "I tried multiple times but couldn’t extract the date/time. Please provide an exact format like:\n`Schedule 'Sentellent sync' on 2026-01-20 22:00 for 30 minutes`"

def extractFail2Msg : String :=
  "I couldn’t reliably extract the date/time. Try: `Schedule 'Sentellent sync' on 2026-01-20 22:00 for 30 minutes`"

/-- `_route_after_sandbox` (graph.py:111-167), including the state
mutations its `extract_datetime` branch performs. -/
def routeAfterSandbox (s : GSt) : GNode × GSt :=
  if s.codeTask = some "extract_datetime" then
    if s.codeError.isSome then
      if s.codeAttempts < 5 then (.codegen, s)
      else
        (.respond, { s with
          timeExtractionNeeded := false,
          codeTask := Option.none,
          response := extractFailMsg })
    else
      let payload := pyOr (s.codeResult.getD .none) (.dict [])
      let ctx := pyOr (s.timeExtractionContext.getD .none) (.dict [])
      let startIso := dictGetD payload "start_iso" .none
      let endIso := dictGetD payload "end_iso" .none
      if pyTruthy startIso && pyTruthy endIso then
        let prepCall := PyVal.dict [("tool", .str "calendar_prepare_event"),
          ("args", .dict [("summary", dictGetD ctx "summary" (.str "Event")),
            ("start_iso", startIso), ("end_iso", endIso)])]
        (.execute, { s with
          plan := [prepCall],
          timeExtractionNeeded := false,
          codeTask := Option.none,
          generatedCode := Option.none,
          codeResult := Option.none,
          codeError := Option.none })
      else
        (.respond, { s with
          timeExtractionNeeded := false,
          codeTask := Option.none,
          response := extractFail2Msg })
  else
    if s.codeError.isNone then (.respond, s)
    else if s.codeAttempts < 5 then (.codegen, s)
    else (.respond, s)

/-- Is the generated-code field empty after `or ""` and `.strip()`? This
is the guard both the security node and the sandbox apply to the code
text. -/
def genCodeEmpty (s : GSt) : Bool :=
  pyStrip (s.generatedCode.getD "") == ""

/-- The state written by the execute node (graph.py:70-76 plus
tools_executor.py:499-500): increment `iterations`, install the batch. -/
def executeUpd (s : GSt) (batch : List PyVal) (pa' : Option PyVal) : GSt :=
  { s with
      iterations := s.iterations + 1,
      lastToolResults := batch,
      toolResults := s.toolResults ++ batch,
      pendingAction := pa' }

/-- The planner's own writes (planner.py:850-1100 assigns only `plan`,
`needs_more`, `response` and the pending-intent signals). -/
def plannerUpd (s : GSt) (plan' : List PyVal) (nm' : Bool) (resp' : String) : GSt :=
  { s with plan := plan', needsMore := nm', response := resp' }

/-- The sandbox node's writes when the subprocess is spawned
(sandbox_runner.py:11-54): bump the attempt counter, then record either a
parsed result or an error. -/
def sandboxUpd (s : GSt) (ce' : Option String) (cr' : Option PyVal) : GSt :=
  { s with codeAttempts := s.codeAttempts + 1, codeError := ce', codeResult := cr' }

/-- The sandbox node's writes when there is no code to run
(sandbox_runner.py:11-16). -/
def sandboxEmptyUpd (s : GSt) : GSt :=
  { s with
      codeAttempts := s.codeAttempts + 1,
      codeError := some "No generated_code to run." }

/-- One step of the compiled graph: run the body of the current node
(adversarial choices existentially quantified in the constructors) and
follow the matching edge of graph.py:188-213.  `respond` is terminal. -/
inductive GStep : GNode × GSt → GNode × GSt → Prop where
  | planner_stop (s : GSt) (h : 5 ≤ s.iterations) :
      GStep (.planner, s) (routeAfterPlanner (plannerHardStop s))
  | planner_run (s : GSt) (plan' : List PyVal) (nm' : Bool) (resp' : String)
      (h : s.iterations < 5) :
      GStep (.planner, s) (routeAfterPlanner (plannerUpd s plan' nm' resp'))
  | execute (s : GSt) (batch : List PyVal) (pa' : Option PyVal) :
      GStep (.execute, s) (.check, executeUpd s batch pa')
  | check (s : GSt) :
      GStep (.check, s) (routeAfterCheck (checkerNode s), checkerNode s)
  | codegen (s : GSt) (tmpl : String) :
      GStep (.codegen, s) (.security, dynamicCodegen tmpl s)
  | security_empty (s : GSt) (h : genCodeEmpty s = true) :
      GStep (.security, s) (.sandbox, { s with codeError := some "No code generated." })
  | security_scan (s : GSt) (ce' : Option String) (h : genCodeEmpty s = false) :
      GStep (.security, s) (.sandbox, { s with codeError := ce' })
  | sandbox_empty (s : GSt) (h : genCodeEmpty s = true) :
      GStep (.sandbox, s) (routeAfterSandbox (sandboxEmptyUpd s))
  | sandbox_spawn (s : GSt) (ce' : Option String) (cr' : Option PyVal)
      (h : genCodeEmpty s = false) :
      GStep (.sandbox, s) (routeAfterSandbox (sandboxUpd s ce' cr'))

/-- The state `main.py:_build_initial_state` hands to `agent.invoke`
(counters zero, flags clear, no code task; the hydrated pending action is
a parameter). -/
def initialGSt (pa0 : Option PyVal) : GSt :=
  { iterations := 0,
    codeAttempts := 0,
    needsMore := false,
    fallbackNeeded := false,
    timeExtractionNeeded := false,
    response := "",
    plan := [],
    lastToolResults := [],
    toolResults := [],
    pendingAction := pa0,
    codeTask := Option.none,
    generatedCode := Option.none,
    codeError := Option.none,
    codeResult := Option.none,
    timeExtractionContext := Option.none }

/-- Configurations reachable within one turn of the graph. -/
inductive GReach (pa0 : Option PyVal) : GNode × GSt → Prop where
  | base : GReach pa0 (.planner, initialGSt pa0)
  | step {c c' : GNode × GSt} : GReach pa0 c → GStep c c' → GReach pa0 c'

/-! ## Loop-bound invariant machinery -/

lemma check_need_more_fields (s : GSt) :
    (check_need_more s).iterations = s.iterations ∧
    (check_need_more s).codeAttempts = s.codeAttempts ∧
    (check_need_more s).timeExtractionNeeded = s.timeExtractionNeeded ∧
    (check_need_more s).codeTask = s.codeTask ∧
    (check_need_more s).lastToolResults = s.lastToolResults := by
  unfold check_need_more
  split_ifs <;> exact ⟨rfl, rfl, rfl, rfl, rfl⟩

lemma check_need_more_nm_lt (s : GSt) :
    (check_need_more s).needsMore = true → s.iterations < 5 := by
  unfold check_need_more
  split_ifs <;> intro h <;> first
    | omega
    | (exfalso; simp at h)

lemma checkerNode_fields (s : GSt) :
    (checkerNode s).iterations = s.iterations ∧
    (checkerNode s).codeAttempts = s.codeAttempts ∧
    (checkerNode s).timeExtractionNeeded = s.timeExtractionNeeded ∧
    (checkerNode s).codeTask = s.codeTask := by
  obtain ⟨h1, h2, h3, h4, h5⟩ := check_need_more_fields s
  unfold checkerNode
  split <;> simp_all

lemma checkerNode_nm (s : GSt) :
    (checkerNode s).needsMore = (check_need_more s).needsMore := by
  unfold checkerNode
  split <;> rfl

lemma routeAfterPlanner_inv (s : GSt) (h : s.timeExtractionNeeded = false) :
    ((routeAfterPlanner s).1 = GNode.respond ∨ (routeAfterPlanner s).1 = GNode.execute) ∧
    (routeAfterPlanner s).2.iterations = s.iterations ∧
    (routeAfterPlanner s).2.codeAttempts = s.codeAttempts ∧
    (routeAfterPlanner s).2.timeExtractionNeeded = false ∧
    (routeAfterPlanner s).2.codeTask = s.codeTask := by
  unfold routeAfterPlanner
  split_ifs <;> simp_all

lemma routeAfterSandbox_none (s : GSt) (h : s.codeTask = Option.none) :
    (routeAfterSandbox s).2 = s ∧
    ((routeAfterSandbox s).1 = GNode.respond ∨
      ((routeAfterSandbox s).1 = GNode.codegen ∧ s.codeAttempts < 5)) := by
  unfold routeAfterSandbox
  rw [h]
  rw [if_neg (by simp : ¬(Option.none : Option String) = some "extract_datetime")]
  split_ifs <;> simp_all

lemma routeAfterCheck_eq_planner {x : GSt} (h : routeAfterCheck x = GNode.planner) :
    x.needsMore = true := by
  unfold routeAfterCheck at h
  split_ifs at h <;> simp_all

lemma routeAfterCheck_ne_execute (x : GSt) : routeAfterCheck x ≠ GNode.execute := by
  unfold routeAfterCheck
  split_ifs <;> simp

/-- Strengthened inductive invariant of the graph: the extraction lane is
never armed, and each node is entered with the counter headroom the
routing guards maintain. -/
def GInv (c : GNode × GSt) : Prop :=
  c.2.timeExtractionNeeded = false ∧
  c.2.codeTask = Option.none ∧
  c.2.iterations ≤ 5 ∧
  c.2.codeAttempts ≤ 5 ∧
  (c.1 = GNode.planner → c.2.iterations ≤ 4) ∧
  (c.1 = GNode.execute → c.2.iterations ≤ 4) ∧
  ((c.1 = GNode.planner ∨ c.1 = GNode.execute ∨ c.1 = GNode.check) → c.2.codeAttempts = 0) ∧
  ((c.1 = GNode.codegen ∨ c.1 = GNode.security ∨ c.1 = GNode.sandbox) → c.2.codeAttempts ≤ 4)

lemma GInv_initial (pa0 : Option PyVal) : GInv (GNode.planner, initialGSt pa0) := by
  refine ⟨rfl, rfl, ?_, ?_, ?_, ?_, ?_, ?_⟩ <;> simp [initialGSt]

lemma GStep_inv {c c' : GNode × GSt} (hs : GStep c c') (hi : GInv c) : GInv c' := by
  obtain ⟨hten, htask, hit, hca, hpl, hex, hz, hle⟩ := hi
  cases hs with
  | planner_stop s h =>
    dsimp only at hpl
    exact absurd (hpl rfl) (by omega)
  | planner_run s plan' nm' resp' h =>
    dsimp only at hten htask hit hca hpl hex hz hle
    have hit4 : s.iterations ≤ 4 := hpl rfl
    have hc0 : s.codeAttempts = 0 := hz (Or.inl rfl)
    have hten' : (plannerUpd s plan' nm' resp').timeExtractionNeeded = false := hten
    obtain ⟨hr, h1, h2, h3, h4⟩ := routeAfterPlanner_inv (plannerUpd s plan' nm' resp') hten'
    have h1' : (routeAfterPlanner (plannerUpd s plan' nm' resp')).2.iterations
        = s.iterations := h1
    have h2' : (routeAfterPlanner (plannerUpd s plan' nm' resp')).2.codeAttempts
        = s.codeAttempts := h2
    have h4' : (routeAfterPlanner (plannerUpd s plan' nm' resp')).2.codeTask
        = s.codeTask := h4
    refine ⟨h3, ?_, ?_, ?_, ?_, ?_, ?_, ?_⟩
    · rw [h4']; exact htask
    · rw [h1']; omega
    · rw [h2']; omega
    · intro hn; rcases hr with hr | hr <;> rw [hr] at hn <;> cases hn
    · intro _; rw [h1']; exact hit4
    · intro _; rw [h2']; exact hc0
    · intro hn; rcases hn with hn | hn | hn <;> rcases hr with hr | hr <;>
        rw [hr] at hn <;> cases hn
  | execute s batch pa' =>
    dsimp only at hten htask hit hca hpl hex hz hle
    have hit4 : s.iterations ≤ 4 := hex rfl
    have hc0 : s.codeAttempts = 0 := hz (Or.inr (Or.inl rfl))
    have e1 : (executeUpd s batch pa').iterations = s.iterations + 1 := rfl
    have e2 : (executeUpd s batch pa').codeAttempts = s.codeAttempts := rfl
    have e3 : (executeUpd s batch pa').timeExtractionNeeded = false := hten
    have e4 : (executeUpd s batch pa').codeTask = Option.none := htask
    refine ⟨e3, e4, ?_, ?_, ?_, ?_, ?_, ?_⟩
    · dsimp only; rw [e1]; omega
    · dsimp only; rw [e2]; omega
    · intro hn; cases hn
    · intro hn; cases hn
    · intro _; dsimp only; rw [e2]; exact hc0
    · intro hn; rcases hn with hn | hn | hn <;> cases hn
  | check s =>
    dsimp only at hten htask hit hca hpl hex hz hle
    obtain ⟨k1, k2, k3, k4⟩ := checkerNode_fields s
    have hc0 : s.codeAttempts = 0 := hz (Or.inr (Or.inr rfl))
    refine ⟨?_, ?_, ?_, ?_, ?_, ?_, ?_, ?_⟩
    · dsimp only; rw [k3]; exact hten
    · dsimp only; rw [k4]; exact htask
    · dsimp only; rw [k1]; omega
    · dsimp only; rw [k2]; omega
    · intro hn
      dsimp only at hn ⊢
      have hnm : (checkerNode s).needsMore = true := routeAfterCheck_eq_planner hn
      have hlt : s.iterations < 5 := by
        apply check_need_more_nm_lt
        rw [← checkerNode_nm]; exact hnm
      rw [k1]; omega
    · intro hn
      dsimp only at hn
      exact absurd hn (routeAfterCheck_ne_execute _)
    · intro _; dsimp only; rw [k2]; exact hc0
    · intro _; dsimp only; rw [k2]; omega
  | codegen s tmpl =>
    dsimp only at hten htask hit hca hpl hex hz hle
    have hc4 : s.codeAttempts ≤ 4 := hle (Or.inl rfl)
    have hfields : (dynamicCodegen tmpl s).iterations = s.iterations ∧
        (dynamicCodegen tmpl s).codeAttempts = s.codeAttempts ∧
        (dynamicCodegen tmpl s).timeExtractionNeeded = s.timeExtractionNeeded ∧
        (dynamicCodegen tmpl s).codeTask = s.codeTask := by
      unfold dynamicCodegen
      split <;> exact ⟨rfl, rfl, rfl, rfl⟩
    obtain ⟨f1, f2, f3, f4⟩ := hfields
    refine ⟨?_, ?_, ?_, ?_, ?_, ?_, ?_, ?_⟩
    · dsimp only; rw [f3]; exact hten
    · dsimp only; rw [f4]; exact htask
    · dsimp only; rw [f1]; omega
    · dsimp only; rw [f2]; omega
    · intro hn; cases hn
    · intro hn; cases hn
    · intro hn; rcases hn with hn | hn | hn <;> cases hn
    · intro _; dsimp only; rw [f2]; exact hc4
  | security_empty s h =>
    dsimp only at hten htask hit hca hpl hex hz hle
    have hc4 : s.codeAttempts ≤ 4 := hle (Or.inr (Or.inl rfl))
    refine ⟨hten, htask, hit, hca, ?_, ?_, ?_, ?_⟩
    · intro hn; cases hn
    · intro hn; cases hn
    · intro hn; rcases hn with hn | hn | hn <;> cases hn
    · intro _; exact hc4
  | security_scan s ce' h =>
    dsimp only at hten htask hit hca hpl hex hz hle
    have hc4 : s.codeAttempts ≤ 4 := hle (Or.inr (Or.inl rfl))
    refine ⟨hten, htask, hit, hca, ?_, ?_, ?_, ?_⟩
    · intro hn; cases hn
    · intro hn; cases hn
    · intro hn; rcases hn with hn | hn | hn <;> cases hn
    · intro _; exact hc4
  | sandbox_empty s h =>
    dsimp only at hten htask hit hca hpl hex hz hle
    have hc4 : s.codeAttempts ≤ 4 := hle (Or.inr (Or.inr rfl))
    have htask' : (sandboxEmptyUpd s).codeTask = Option.none := htask
    obtain ⟨heq, hr⟩ := routeAfterSandbox_none (sandboxEmptyUpd s) htask'
    have f1 : (sandboxEmptyUpd s).iterations = s.iterations := rfl
    have f2 : (sandboxEmptyUpd s).codeAttempts = s.codeAttempts + 1 := rfl
    have f3 : (sandboxEmptyUpd s).timeExtractionNeeded = false := hten
    refine ⟨?_, ?_, ?_, ?_, ?_, ?_, ?_, ?_⟩
    · rw [heq]; exact f3
    · rw [heq]; exact htask'
    · rw [heq, f1]; omega
    · rw [heq, f2]; omega
    · intro hn; rcases hr with hr | ⟨hr, _⟩ <;> rw [hr] at hn <;> cases hn
    · intro hn; rcases hr with hr | ⟨hr, _⟩ <;> rw [hr] at hn <;> cases hn
    · intro hn; rcases hr with hr | ⟨hr, _⟩ <;> rw [hr] at hn <;>
        rcases hn with hn | hn | hn <;> cases hn
    · intro hn
      rcases hr with hr | ⟨hr, hlt⟩
      · rw [hr] at hn; rcases hn with hn | hn | hn <;> cases hn
      · rw [heq, f2]
        have h5 : (sandboxEmptyUpd s).codeAttempts < 5 := hlt
        rw [f2] at h5; omega
  | sandbox_spawn s ce' cr' h =>
    dsimp only at hten htask hit hca hpl hex hz hle
    have hc4 : s.codeAttempts ≤ 4 := hle (Or.inr (Or.inr rfl))
    have htask' : (sandboxUpd s ce' cr').codeTask = Option.none := htask
    obtain ⟨heq, hr⟩ := routeAfterSandbox_none (sandboxUpd s ce' cr') htask'
    have f1 : (sandboxUpd s ce' cr').iterations = s.iterations := rfl
    have f2 : (sandboxUpd s ce' cr').codeAttempts = s.codeAttempts + 1 := rfl
    have f3 : (sandboxUpd s ce' cr').timeExtractionNeeded = false := hten
    refine ⟨?_, ?_, ?_, ?_, ?_, ?_, ?_, ?_⟩
    · rw [heq]; exact f3
    · rw [heq]; exact htask'
    · rw [heq, f1]; omega
    · rw [heq, f2]; omega
    · intro hn; rcases hr with hr | ⟨hr, _⟩ <;> rw [hr] at hn <;> cases hn
    · intro hn; rcases hr with hr | ⟨hr, _⟩ <;> rw [hr] at hn <;> cases hn
    · intro hn; rcases hr with hr | ⟨hr, _⟩ <;> rw [hr] at hn <;>
        rcases hn with hn | hn | hn <;> cases hn
    · intro hn
      rcases hr with hr | ⟨hr, hlt⟩
      · rw [hr] at hn; rcases hn with hn | hn | hn <;> cases hn
      · rw [heq, f2]
        have h5 : (sandboxUpd s ce' cr').codeAttempts < 5 := hlt
        rw [f2] at h5; omega

lemma GReach_inv {pa0 : Option PyVal} {c : GNode × GSt} (h : GReach pa0 c) : GInv c := by
  induction h with
  | base => exact GInv_initial pa0
  | step _ hs ih => exact GStep_inv hs ih

/-! ## Per-user row-count properties of the durable tables -/

/-- Number of rows a table holds for one user. -/
def rowCount (t : Table) (u : String) : Nat :=
  (t.filter (fun r => r.1 == u)).length

lemma rowCount_nil (u : String) : rowCount [] u = 0 := rfl

lemma rowCount_cons (r : String × PyVal) (rs : Table) (w : String) :
    rowCount (r :: rs) w = (if r.1 = w then 1 else 0) + rowCount rs w := by
  by_cases h : r.1 = w <;> simp [rowCount, List.filter_cons, h] <;> omega

lemma rowCount_saveRow (t : Table) (u : String) (v : PyVal) (w : String) :
    rowCount (saveRow t u v) w
      = if w = u then max (rowCount t u) 1 else rowCount t w := by
  induction t with
  | nil =>
    by_cases hw : w = u <;>
      simp [saveRow, rowCount_cons, rowCount_nil, hw]
    intro he; exact hw he.symm
  | cons r rs ih =>
    by_cases hr : r.1 = u
    · by_cases hw : w = u
      · have hs : saveRow (r :: rs) u v = (u, v) :: rs := by simp [saveRow, hr]
        rw [hs]
        simp [rowCount_cons, hr, hw]
      · have hru : ¬ r.1 = w := by rw [hr]; intro he; exact hw he.symm
        have huw : ¬ u = w := by intro he; exact hw he.symm
        simp [saveRow, hr, rowCount_cons, hw, hru, huw]
    · by_cases hw : w = u
      · subst hw
        have hrw : ¬ r.1 = w := hr
        simp [saveRow, hr, rowCount_cons, hrw, ih]
      · simp [saveRow, hr, rowCount_cons, hw, ih]

lemma rowCount_clearRow_le (t : Table) (u : String) (w : String) :
    rowCount (clearRow t u) w ≤ rowCount t w := by
  induction t with
  | nil => simp [clearRow]
  | cons r rs ih =>
    by_cases hr : r.1 = u
    · simp [clearRow, hr, rowCount_cons]
    · have hs : clearRow (r :: rs) u = r :: clearRow rs u := by simp [clearRow, hr]
      rw [hs, rowCount_cons, rowCount_cons]
      omega

lemma getRow_saveRow_self (t : Table) (u : String) (v : PyVal) :
    getRow (saveRow t u v) u = some v := by
  induction t with
  | nil => simp [saveRow, getRow]
  | cons r rs ih =>
    by_cases hr : r.1 = u <;> simp [saveRow, hr, getRow, ih]

lemma getRow_none_of_count_zero (t : Table) (u : String)
    (h : rowCount t u = 0) : getRow t u = Option.none := by
  induction t with
  | nil => simp [getRow]
  | cons r rs ih =>
    rw [rowCount_cons] at h
    by_cases hr : r.1 = u
    · rw [if_pos hr] at h; omega
    · rw [if_neg hr] at h
      simp [getRow, hr]
      exact ih (by omega)

lemma rowCount_clearRow_self (t : Table) (u : String) :
    rowCount (clearRow t u) u = rowCount t u - 1 := by
  induction t with
  | nil => simp [clearRow, rowCount_nil]
  | cons r rs ih =>
    by_cases hr : r.1 = u
    · simp [clearRow, hr, rowCount_cons]
    · have hs : clearRow (r :: rs) u = r :: clearRow rs u := by simp [clearRow, hr]
      rw [hs, rowCount_cons, rowCount_cons, ih]
      have := rowCount_clearRow_le rs u u
      simp only [if_neg hr]
      omega

lemma getRow_clearRow_self (t : Table) (u : String) (h : rowCount t u ≤ 1) :
    getRow (clearRow t u) u = Option.none := by
  apply getRow_none_of_count_zero
  have := rowCount_clearRow_self t u
  omega

/-- A write against the pending-state store: the four mutating entry
points of pending_actions.py / pending_intent.py. -/
inductive DbOp where
  | saveA (u : String) (v : PyVal)
  | clearA (u : String)
  | saveI (u : String) (v : PyVal)
  | clearI (u : String)

def applyDbOp (db : Db) : DbOp → Db
  | .saveA u v => save_pending_action db u v
  | .clearA u => clear_pending_action db u
  | .saveI u v => save_pending_intent db u v
  | .clearI u => clear_pending_intent db u

def applyDbOps (db : Db) (ops : List DbOp) : Db := ops.foldl applyDbOp db

def emptyDb : Db := ⟨[], []⟩

lemma applyDbOp_count_le (db : Db) (op : DbOp) (u : String)
    (ha : rowCount db.pendingActions u ≤ 1) (hi : rowCount db.pendingIntents u ≤ 1) :
    rowCount (applyDbOp db op).pendingActions u ≤ 1 ∧
    rowCount (applyDbOp db op).pendingIntents u ≤ 1 := by
  cases op with
  | saveA u' v =>
    refine ⟨?_, hi⟩
    show rowCount (saveRow db.pendingActions u' v) u ≤ 1
    rw [rowCount_saveRow]
    split
    · rename_i heq; subst heq; omega
    · omega
  | clearA u' =>
    refine ⟨?_, hi⟩
    show rowCount (clearRow db.pendingActions u') u ≤ 1
    have := rowCount_clearRow_le db.pendingActions u' u
    omega
  | saveI u' v =>
    refine ⟨ha, ?_⟩
    show rowCount (saveRow db.pendingIntents u' v) u ≤ 1
    rw [rowCount_saveRow]
    split
    · rename_i heq; subst heq; omega
    · omega
  | clearI u' =>
    refine ⟨ha, ?_⟩
    show rowCount (clearRow db.pendingIntents u') u ≤ 1
    have := rowCount_clearRow_le db.pendingIntents u' u
    omega

lemma applyDbOps_count_le (ops : List DbOp) (db : Db) (u : String)
    (ha : rowCount db.pendingActions u ≤ 1) (hi : rowCount db.pendingIntents u ≤ 1) :
    rowCount (applyDbOps db ops).pendingActions u ≤ 1 ∧
    rowCount (applyDbOps db ops).pendingIntents u ≤ 1 := by
  induction ops generalizing db with
  | nil => exact ⟨ha, hi⟩
  | cons op rest ih =>
    obtain ⟨ha', hi'⟩ := applyDbOp_count_le db op u ha hi
    exact ih (applyDbOp db op) ha' hi'

/-- C5: starting from an empty store, any sequence of saves and clears
leaves at most one PendingAction row and one PendingClarification row per
user; and saving over an existing row overwrites it in place (the lookup
then returns the new payload and the row count stays 1). -/
theorem C5_at_most_one_pending_row (ops : List DbOp) (u : String) :
    rowCount (applyDbOps emptyDb ops).pendingActions u ≤ 1 ∧
    rowCount (applyDbOps emptyDb ops).pendingIntents u ≤ 1 ∧
    (∀ (db : Db) (v : PyVal), rowCount db.pendingActions u ≤ 1 →
      get_pending_action (save_pending_action db u v) u = some v ∧
      rowCount (save_pending_action db u v).pendingActions u = 1) ∧
    (∀ (db : Db) (v : PyVal), rowCount db.pendingIntents u ≤ 1 →
      get_pending_intent (save_pending_intent db u v) u = some v ∧
      rowCount (save_pending_intent db u v).pendingIntents u = 1) := by
  obtain ⟨ha, hi⟩ := applyDbOps_count_le ops emptyDb u (by simp [emptyDb, rowCount]) (by simp [emptyDb, rowCount])
  refine ⟨ha, hi, ?_, ?_⟩
  · intro db v hc
    refine ⟨getRow_saveRow_self db.pendingActions u v, ?_⟩
    show rowCount (saveRow db.pendingActions u v) u = 1
    rw [rowCount_saveRow]
    simp
    omega
  · intro db v hc
    refine ⟨getRow_saveRow_self db.pendingIntents u v, ?_⟩
    show rowCount (saveRow db.pendingIntents u v) u = 1
    rw [rowCount_saveRow]
    simp
    omega

/-- Witness for C5 at a concrete operation sequence: two successive saves
for the same user leave one row, and the second save's payload wins. -/
theorem C5_witness :
    rowCount (applyDbOps emptyDb
      [DbOp.saveA "u1" (.str "a"), DbOp.saveA "u1" (.str "b")]).pendingActions "u1" ≤ 1 ∧
    get_pending_action (save_pending_action emptyDb "u1" (.str "a")) "u1" = some (.str "a") ∧
    rowCount (save_pending_action emptyDb "u1" (.str "a")).pendingActions "u1" = 1 := by
  have h := C5_at_most_one_pending_row
    [DbOp.saveA "u1" (.str "a"), DbOp.saveA "u1" (.str "b")] "u1"
  have h2 := h.2.2.1 emptyDb (.str "a") (by simp [emptyDb, rowCount])
  exact ⟨h.1, h2.1, h2.2⟩

/-- C2: the confirmation handler performs a side-effecting calendar or
email call only when the reply parses as an explicit `yes` and a
PendingAction is actually staged; on a `no` or `unknown` decision, or
when no PendingAction exists, its list of external calls is empty. -/
theorem C2_no_execution_without_yes (st : ExecSt) (db : Db) (args : PyVal)
    (svc : Option Gsvc)
    (h : confDecision args ≠ Except.ok Dec.yes ∨
         get_pending_action db st.userId = Option.none) :
    (handleConfirmation st db args svc).effects = [] := by
  unfold handleConfirmation
  cases hd : confDecision args with
  | error e => rfl
  | ok d =>
    cases hp : get_pending_action db st.userId with
    | none => rfl
    | some pending =>
      have hd' : d ≠ Dec.yes := by
        rcases h with h | h
        · intro he; rw [he] at hd; exact h hd
        · rw [hp] at h; cases h
      cases d with
      | yes => exact absurd rfl hd'
      | no => rfl
      | unknown => rfl

/-- Witness for C2: a `yes` reply with no staged PendingAction performs
no external call. -/
theorem C2_witness :
    (handleConfirmation ⟨"u1", .dict [], Option.none, Option.none⟩ emptyDb
      (.dict [("raw", .str "yes")]) Option.none).effects = [] :=
  C2_no_execution_without_yes _ _ _ _ (Or.inr rfl)

/-- C6: when no PendingAction row exists for the user, the confirmation
handler returns an `ok=True` result marked `already_handled`, raises
nothing, performs no external call, and leaves neither a pending action
nor a pending clarification behind (in memory or in the store). -/
theorem C6_already_handled (st : ExecSt) (db : Db) (args : PyVal)
    (svc : Option Gsvc) (d : Dec)
    (hd : confDecision args = Except.ok d)
    (hp : get_pending_action db st.userId = Option.none)
    (hc : rowCount db.pendingIntents st.userId ≤ 1) :
    (handleConfirmation st db args svc).outcome
      = Except.ok (.dict [("tool", .str "handle_confirmation"), ("ok", .bool true),
          ("result", .str "No pending action anymore (already handled in another tab)."),
          ("already_handled", .bool true)]) ∧
    (handleConfirmation st db args svc).effects = [] ∧
    (handleConfirmation st db args svc).st.pendingAction = Option.none ∧
    (handleConfirmation st db args svc).st.pendingIntent = Option.none ∧
    get_pending_action (handleConfirmation st db args svc).db st.userId = Option.none ∧
    get_pending_intent (handleConfirmation st db args svc).db st.userId = Option.none := by
  unfold handleConfirmation
  rw [hd, hp]
  refine ⟨rfl, rfl, rfl, rfl, hp, ?_⟩
  exact getRow_clearRow_self db.pendingIntents st.userId hc

/-- Witness for C6: a duplicate `yes` against an empty store succeeds as
already handled. -/
theorem C6_witness :
    (handleConfirmation ⟨"u1", .dict [], Option.none, Option.none⟩ emptyDb
        (.dict [("raw", .str "yes")]) Option.none).outcome
      = Except.ok (.dict [("tool", .str "handle_confirmation"), ("ok", .bool true),
          ("result", .str "No pending action anymore (already handled in another tab)."),
          ("already_handled", .bool true)]) ∧
    (handleConfirmation ⟨"u1", .dict [], Option.none, Option.none⟩ emptyDb
      (.dict [("raw", .str "yes")]) Option.none).st.pendingAction = Option.none := by
  have h := C6_already_handled ⟨"u1", .dict [], Option.none, Option.none⟩ emptyDb
    (.dict [("raw", .str "yes")]) Option.none Dec.yes rfl rfl
    (by simp [emptyDb, rowCount])
  exact ⟨h.1, h.2.2.1⟩

/-- The pending calendar-create action staged for the C10 scenario. -/
def c10Pending : PyVal :=
  .dict [("type", .str "calendar_create"),
    ("payload", .dict [("summary", .str "Standup"),
      ("start_iso", .str "2026-01-21T10:00:00+05:30"),
      ("end_iso", .str "2026-01-21T10:30:00+05:30")])]

def c10Db : Db := ⟨[("u1", c10Pending)], []⟩

def c10Svc : Gsvc :=
  ⟨.dict [("id", .str "ev9"), ("htmlLink", .str "https://cal/ev9")],
   .dict [], .dict [], fun _ => Option.none⟩

/-- C10: `_parse_confirmation` tests the affirmative patterns first, so
any reply whose lowercased text contains an affirmative word is classified
`yes` even if it also contains a negative word; in particular
"okay, cancel that" confirms, and the handler then executes the staged
irreversible action (here: the calendar-create call is performed). -/
theorem C10_affirmative_checked_first :
    (∀ raw : String, hasAnyWord yesPatterns (pyLower (pyStrip raw)) = true →
      (parseConfirmation raw).1 = Dec.yes) ∧
    (parseConfirmation "okay, cancel that").1 = Dec.yes ∧
    (handleConfirmation ⟨"u1", .dict [], some c10Pending, Option.none⟩ c10Db
        (.dict [("raw", .str "okay, cancel that")]) (some c10Svc)).effects
      = [GEffect.createEvent (.str "Standup") (.str "2026-01-21T10:00:00+05:30")
          (.str "2026-01-21T10:30:00+05:30") .none .none] := by
  refine ⟨?_, by decide, rfl⟩
  intro raw h
  unfold parseConfirmation
  rw [if_pos h]

/-- Witness for C10's universally quantified part at the concrete mixed
reply. -/
theorem C10_witness :
    hasAnyWord yesPatterns (pyLower (pyStrip "okay, cancel that")) = true ∧
    (parseConfirmation "okay, cancel that").1 = Dec.yes :=
  ⟨by decide, C10_affirmative_checked_first.1 "okay, cancel that" (by decide)⟩

/-- C4: in every configuration the orchestration graph can reach within a
turn, the planner-loop iteration counter is at most 5 and the
code-fallback attempt counter is at most 5 — in particular whenever the
LoopController (`check` node) observes them. -/
theorem C4_counters_bounded (pa0 : Option PyVal) (c : GNode × GSt)
    (h : GReach pa0 c) : c.2.iterations ≤ 5 ∧ c.2.codeAttempts ≤ 5 := by
  obtain ⟨_, _, h3, h4, _⟩ := GReach_inv h
  exact ⟨h3, h4⟩

/-- Witness for C4 at a concrete reachable configuration (the turn's
entry point). -/
theorem C4_witness :
    (initialGSt Option.none).iterations ≤ 5 ∧
    (initialGSt Option.none).codeAttempts ≤ 5 :=
  C4_counters_bounded Option.none (GNode.planner, initialGSt Option.none) GReach.base

/-- A latest batch whose single result failed (`ok=False`), with prior
history and an in-flight turn: the state the checker sees right after a
failed execute step. -/
def c3State : GSt :=
  { initialGSt Option.none with
      iterations := 1,
      lastToolResults := [PyVal.dict [("tool", .str "calendar_list_events"),
        ("ok", .bool false), ("error", .str "HttpError: 500")]],
      toolResults := [PyVal.dict [("tool", .str "calendar_list_events"),
        ("ok", .bool false), ("error", .str "HttpError: 500")]] }

/-- Counterexample to C3 as stated: here every result in the latest batch
failed, so the claim demands `fallback_needed=true` to override and route
the turn to codegen — but `check_need_more` still sets `needs_more=true`,
and `_route_after_check` tests `needs_more` first, so the turn is routed
back to the planner, not to codegen. -/
theorem C3_counterexample :
    c3State.lastToolResults.all okIsFalse = true ∧
    (checkerNode c3State).needsMore = true ∧
    (checkerNode c3State).fallbackNeeded = true ∧
    routeAfterCheck (checkerNode c3State) = GNode.planner ∧
    routeAfterCheck (checkerNode c3State) ≠ GNode.codegen := by
  refine ⟨rfl, rfl, rfl, rfl, ?_⟩
  intro h
  rw [(rfl : routeAfterCheck (checkerNode c3State) = GNode.planner)] at h
  cases h

/-- C3 as amended: when the checker evaluates a non-empty latest batch
containing a failure (and no earlier guard fires: the iteration cap, the
planner-question stop, the pending-action stop, or the nothing-ran
fallback), it sets `needs_more=true` and the router sends the turn back
to the planner even when all results failed or an unknown-tool error is
present; in those overriding cases `fallback_needed` is set to true as
well, but it only takes effect on turns where `needs_more` is false. -/
theorem C3_amended (s : GSt)
    (h1 : s.iterations < 5)
    (h2 : (s.needsMore && !(pyStrip s.response == "") && s.plan.isEmpty) = false)
    (h3 : s.pendingAction = Option.none)
    (h4 : (s.plan.isEmpty && s.toolResults.isEmpty && (pyStrip s.response == "")) = false)
    (h5 : s.lastToolResults.isEmpty = false)
    (h6 : s.lastToolResults.any okIsFalse = true) :
    (checkerNode s).needsMore = true ∧
    routeAfterCheck (checkerNode s) = GNode.planner ∧
    ((s.lastToolResults.all okIsFalse = true ∨
        s.lastToolResults.any errIsUnknownTool = true) →
      (checkerNode s).fallbackNeeded = true) := by
  have hcnm : check_need_more s = { s with needsMore := true } := by
    unfold check_need_more
    rw [if_neg (by omega)]
    rw [if_neg (by simp [h2])]
    rw [if_neg (by simp [h3])]
    rw [if_neg (by simp [h4])]
    rw [if_pos (by simp [h5, h6])]
  have hnm : (checkerNode s).needsMore = true := by
    rw [checkerNode_nm, hcnm]
  refine ⟨hnm, ?_, ?_⟩
  · unfold routeAfterCheck
    rw [if_pos hnm]
  · intro hov
    unfold checkerNode
    rw [hcnm]
    rw [if_pos ?_]
    have hlt : ({ s with needsMore := true } : GSt).lastToolResults
        = s.lastToolResults := rfl
    rw [hlt, h5]
    rcases hov with hov | hov <;> simp [hov]

/-- Witness for the amended C3 at the concrete all-failed batch. -/
theorem C3_witness :
    (checkerNode c3State).needsMore = true ∧
    routeAfterCheck (checkerNode c3State) = GNode.planner := by
  have h := C3_amended c3State (by decide) (by decide) rfl (by decide)
    (by decide) (by decide)
  exact ⟨h.1, h.2.1⟩

/-- The security-stage state holding the disallowed fragment, with no
prior error and no attempts spent. -/
def c1SecState : SecState :=
  ⟨some osImportFragment, Option.none, Option.none, 0⟩

/-- C1 fails on the code: `security_check` records the violation for the
`import os` fragment, but the graph's `security → sandbox` edge is
unconditional and `sandbox_run` neither consults `code_error` nor skips a
rejected fragment — it resets the recorded violation and spawns the
subprocess on that very fragment (spawn flag `true`). -/
theorem C1_rejected_fragment_still_runs :
    (security_check c1SecState).codeError
      = some "Security violation: import os is not allowed." ∧
    (securityThenSandbox c1SecState (SandboxOutcome.ok Option.none)).2 = true ∧
    (securityThenSandbox c1SecState (SandboxOutcome.ok Option.none)).1.codeError
      = Option.none := by
  refine ⟨?_, rfl, rfl⟩
  rfl

lemma pyTruthy_of_parseIso {v : PyVal} {x : Nat × Nat}
    (hm : parseIsoDtV v = some x) : pyTruthy v = true := by
  cases v <;> simp [parseIsoDtV] at hm
  rename_i s
  unfold parseIsoDt at hm
  by_cases he : (s == "") = true
  · rw [if_pos he] at hm; cases hm
  · simp [pyTruthy]
    intro hc
    rw [hc] at he
    exact he rfl

lemma violates_eq (st : ExecSt) (v : PyVal) (lim hh mm : Nat)
    (hlim : noMeetingsBeforeMinutes st = some lim)
    (hp : parseIsoDtV v = some (hh, mm))
    (hlt : hh * 60 + mm < lim) :
    violatesNoMeetingsBefore st v
      = (true, some (pyFormat (dictGetD (pyOr st.memories (.dict []))
          "no_meetings_before" .none))) := by
  unfold violatesNoMeetingsBefore
  rw [hlim, hp]
  dsimp only
  rw [if_pos hlt]

/-- C8: with a valid `no_meetings_before` preference set, a
`calendar_prepare_event` call whose parseable `start_iso` begins earlier
than the preference, and a `calendar_update_event` call whose patch sets
`start.dateTime` earlier than the preference, are both rejected with a
descriptive error: the result has `ok=False`, no PendingAction is staged
(neither in the store nor in the state), and no external call is made. -/
theorem C8_no_meetings_before_gate :
    (∀ (st : ExecSt) (db : Db) (args conflicts : PyVal) (lim hh mm : Nat),
      noMeetingsBeforeMinutes st = some lim →
      parseIsoDtV (dictGetD args "start_iso" .none) = some (hh, mm) →
      hh * 60 + mm < lim →
      pyTruthy (dictGetD args "end_iso" .none) = true →
      (toolCalendarPrepareEvent st db args true conflicts).outcome
        = Except.ok (.dict [("tool", .str "calendar_prepare_event"), ("ok", .bool false),
            ("error", .str ("Start time violates your preference: no meetings before "
              ++ pyFormat (dictGetD (pyOr st.memories (.dict [])) "no_meetings_before" .none)
              ++ ". Please pick a later time."))]) ∧
      (toolCalendarPrepareEvent st db args true conflicts).db.pendingActions
        = db.pendingActions ∧
      (toolCalendarPrepareEvent st db args true conflicts).st.pendingAction
        = st.pendingAction ∧
      (toolCalendarPrepareEvent st db args true conflicts).effects = []) ∧
    (∀ (st : ExecSt) (db : Db) (args : PyVal) (lim hh mm : Nat) (eid : String)
        (kvs skvs : List (String × PyVal)),
      noMeetingsBeforeMinutes st = some lim →
      getStrippedStr args "event_id" = Except.ok eid →
      eid ≠ "" →
      dictGetD args "patch" .none = PyVal.dict kvs →
      kvs ≠ [] →
      dictGetD (PyVal.dict kvs) "start" .none = PyVal.dict skvs →
      pyTruthy (dictGetD (PyVal.dict skvs) "dateTime" .none) = true →
      parseIsoDtV (.str (pyFormat (dictGetD (PyVal.dict skvs) "dateTime" .none)))
        = some (hh, mm) →
      hh * 60 + mm < lim →
      (toolCalendarUpdateEvent st db args true).outcome
        = Except.ok (.dict [("tool", .str "calendar_update_event"), ("ok", .bool false),
            ("error", .str ("Updated start time violates your preference: no meetings before "
              ++ pyFormat (dictGetD (pyOr st.memories (.dict [])) "no_meetings_before" .none)
              ++ "."))]) ∧
      (toolCalendarUpdateEvent st db args true).db.pendingActions = db.pendingActions ∧
      (toolCalendarUpdateEvent st db args true).st.pendingAction = st.pendingAction ∧
      (toolCalendarUpdateEvent st db args true).effects = []) := by
  constructor
  · intro st db args conflicts lim hh mm hlim hp hlt hend
    have hst : pyTruthy (dictGetD args "start_iso" .none) = true :=
      pyTruthy_of_parseIso hp
    have hv := violates_eq st (dictGetD args "start_iso" .none) lim hh mm hlim hp hlt
    unfold toolCalendarPrepareEvent
    rw [if_neg (by decide)]
    rw [if_neg (by simp [hst, hend])]
    simp only [hv]
    rw [if_pos trivial]
    exact ⟨rfl, rfl, rfl, rfl⟩
  · intro st db args lim hh mm eid kvs skvs hlim heid hne hpatch hkvs hstart hdt hp hlt
    have hv := violates_eq st (.str (pyFormat (dictGetD (PyVal.dict skvs) "dateTime" .none)))
      lim hh mm hlim hp hlt
    unfold toolCalendarUpdateEvent
    rw [if_neg (by decide)]
    rw [heid]
    dsimp only
    rw [hpatch]
    dsimp only
    rw [if_neg hne]
    rw [if_neg (by simp [pyTruthy, hkvs])]
    rw [hstart]
    dsimp only
    rw [if_pos (by simp [hdt])]
    simp only [hv]
    rw [if_pos trivial]
    exact ⟨rfl, rfl, rfl, rfl⟩

def c8St : ExecSt :=
  ⟨"u1", .dict [("no_meetings_before", .str "10:00")], Option.none, Option.none⟩

def c8Args : PyVal :=
  .dict [("start_iso", .str "2026-01-20T08:30:00+05:30"),
    ("end_iso", .str "2026-01-20T09:00:00+05:30")]

/-- Witness for C8: an 08:30 start against a 10:00 preference is rejected
and nothing is staged. -/
theorem C8_witness :
    (toolCalendarPrepareEvent c8St emptyDb c8Args true (.list [])).outcome
      = Except.ok (.dict [("tool", .str "calendar_prepare_event"), ("ok", .bool false),
          ("error", .str "Start time violates your preference: no meetings before 10:00. Please pick a later time.")]) ∧
    (toolCalendarPrepareEvent c8St emptyDb c8Args true (.list [])).effects = [] := by
  have h := C8_no_meetings_before_gate.1 c8St emptyDb c8Args (.list []) 600 8 30
    (by decide) (by decide) (by decide) (by decide)
  exact ⟨h.1, h.2.2.2⟩

lemma executeToolsResults_length (oracle : Nat → HOutcome) (k : Nat) (plan : List PyVal) :
    (executeToolsResults oracle k plan).length = plan.length := by
  induction plan generalizing k with
  | nil => rfl
  | cons c cs ih => simp [executeToolsResults, ih]

lemma executeToolsResults_get (oracle : Nat → HOutcome) (plan : List PyVal)
    (k i : Nat) (hi : i < plan.length)
    (hi' : i < (executeToolsResults oracle k plan).length) :
    (executeToolsResults oracle k plan).get ⟨i, hi'⟩
      = dispatchOne oracle (k + i) (plan.get ⟨i, hi⟩) := by
  induction plan generalizing k i with
  | nil => cases hi
  | cons c cs ih =>
    cases i with
    | zero => rfl
    | succ j =>
      have hj : j < cs.length := Nat.lt_of_succ_lt_succ hi
      have hj' : j < (executeToolsResults oracle (k + 1) cs).length := by
        rw [executeToolsResults_length]; exact hj
      have heq : (executeToolsResults oracle k (c :: cs)).get ⟨j + 1, hi'⟩
          = (executeToolsResults oracle (k + 1) cs).get ⟨j, hj'⟩ := rfl
      rw [heq, ih (k + 1) j hj hj']
      have harg : ((c :: cs).get ⟨j + 1, hi⟩) = cs.get ⟨j, hj⟩ := rfl
      rw [harg]
      have hk : k + 1 + j = k + (j + 1) := by omega
      rw [hk]

/-- C9: `execute_tools` yields exactly one result per plan entry, in plan
order; the batch becomes `last_tool_results` and is appended to the
running `tool_results`; a call whose tool identifier is not in the
registry yields an `ok=False` result with an `Unknown tool:` error; and a
handler that raises is caught and converted into an `ok=False` result
rather than propagating. -/
theorem C9_tool_dispatch (ts : ToolsState) (plan : List PyVal)
    (oracle : Nat → HOutcome) :
    (execute_tools ts plan oracle).lastToolResults = executeToolsResults oracle 0 plan ∧
    (execute_tools ts plan oracle).toolResults
      = ts.toolResults ++ executeToolsResults oracle 0 plan ∧
    (executeToolsResults oracle 0 plan).length = plan.length ∧
    (∀ (i : Nat) (hi : i < plan.length)
        (hi' : i < (executeToolsResults oracle 0 plan).length),
      (executeToolsResults oracle 0 plan).get ⟨i, hi'⟩
        = dispatchOne oracle i (plan.get ⟨i, hi⟩)) ∧
    (∀ (call : PyVal) (i : Nat),
      isKnownTool (dictGetD call "tool" .none) = false →
      dispatchOne oracle i call
        = .dict [("tool", dictGetD call "tool" .none), ("ok", .bool false),
            ("error", .str ("Unknown tool: " ++ pyFormat (dictGetD call "tool" .none)))]) ∧
    (∀ (call : PyVal) (i : Nat) (n m : String),
      isKnownTool (dictGetD call "tool" .none) = true →
      oracle i = HOutcome.exn n m →
      dispatchOne oracle i call
        = .dict [("tool", dictGetD call "tool" .none), ("ok", .bool false),
            ("error", .str (n ++ ": " ++ m))]) := by
  refine ⟨rfl, rfl, executeToolsResults_length oracle 0 plan, ?_, ?_, ?_⟩
  · intro i hi hi'
    have := executeToolsResults_get oracle plan 0 i hi hi'
    simpa using this
  · intro call i hk
    unfold dispatchOne
    rw [if_pos (by simp [hk])]
  · intro call i n m hk ho
    unfold dispatchOne
    rw [if_neg (by simp [hk]), ho]

def c9Plan : List PyVal :=
  [.dict [("tool", .str "calendar_list_events"), ("args", .dict [])],
   .dict [("tool", .str "bogus"), ("args", .dict [])]]

def c9Oracle : Nat → HOutcome := fun _ =>
  HOutcome.ret (.dict [("tool", .str "calendar_list_events"), ("ok", .bool true)])

/-- Witness for C9: a two-call plan yields two results, and the unknown
tool gets its `ok=False` result. -/
theorem C9_witness :
    (executeToolsResults c9Oracle 0 c9Plan).length = c9Plan.length ∧
    dispatchOne c9Oracle 1 (.dict [("tool", .str "bogus"), ("args", .dict [])])
      = .dict [("tool", .str "bogus"), ("ok", .bool false),
          ("error", .str "Unknown tool: bogus")] := by
  have h := C9_tool_dispatch ⟨[], []⟩ c9Plan c9Oracle
  refine ⟨h.2.2.1, ?_⟩
  exact h.2.2.2.2.1 (.dict [("tool", .str "bogus"), ("args", .dict [])]) 1 (by decide)

/-- The most recent (and only) successful listing for the C7 scenarios:
one event titled "Lunch". -/
def c7ToolResults : List PyVal :=
  [PyVal.dict [("tool", .str "calendar_list_events"), ("ok", .bool true),
    ("result", .list [PyVal.dict [("id", .str "ev1"), ("summary", .str "Lunch")]])]]

def c7Win : String × String :=
  ("2026-01-21T00:00:00+05:30", "2026-01-22T00:00:00+05:30")

/-- Counterexample to C7 as stated: "delete Standup tomorrow" resolves
the title "Standup" against the latest listing and finds zero matches, so
the claim demands a prompt to list events first — but because the request
contains "tomorrow" the branch instead emits a `calendar_list_events`
plan with an empty response and `needs_more=false`: no prompt is shown. -/
theorem C7_counterexample :
    extractDeleteTitle "delete Standup tomorrow" = some "Standup" ∧
    matchEventsByTitle (eventsFromLastToolResults c7ToolResults) "Standup" = [] ∧
    plannerDeleteBranch "delete Standup tomorrow" c7ToolResults c7Win = some
      { plan := [PyVal.dict [("tool", .str "calendar_list_events"),
          ("args", .dict [("time_min", .str c7Win.1), ("time_max", .str c7Win.2),
            ("max_results", .int 50)])]],
        needsMore := false, response := "", pendingIntentOp := some "save" } :=
  ⟨rfl, rfl, rfl⟩

/-- C7 as amended: for a delete-by-title request resolved against the
most recent successful listing — zero matches yields no delete call, and
either (when the request mentions "tomorrow") a single
`calendar_list_events` plan over tomorrow's window with no question, or
otherwise a prompt to list events first; exactly one match whose event id
is non-empty yields a one-call delete plan with no further identity
question; more than one match yields `needs_more=true` with a question
enumerating up to 5 candidates and no delete call. -/
theorem C7_delete_by_title (raw : String) (trs : List PyVal) (win : String × String)
    (title : String)
    (ht : extractDeleteTitle raw = some title)
    (hne : (title == "") = false) :
    (matchEventsByTitle (eventsFromLastToolResults trs) title = [] →
      strContainsSub (pyLower raw) "tomorrow" = true →
      plannerDeleteBranch raw trs win = some
        { plan := [PyVal.dict [("tool", .str "calendar_list_events"),
            ("args", .dict [("time_min", .str win.1), ("time_max", .str win.2),
              ("max_results", .int 50)])]],
          needsMore := false, response := "", pendingIntentOp := some "save" }) ∧
    (matchEventsByTitle (eventsFromLastToolResults trs) title = [] →
      strContainsSub (pyLower raw) "tomorrow" = false →
      plannerDeleteBranch raw trs win = some
        { plan := [], needsMore := true,
          response := "I can’t find that event yet. Say “list my meetings tomorrow” first, then tell me which one to delete.",
          pendingIntentOp := some "save" }) ∧
    (∀ e, matchEventsByTitle (eventsFromLastToolResults trs) title = [e] →
      (eidOf e == "") = false →
      plannerDeleteBranch raw trs win = some
        { plan := [PyVal.dict [("tool", .str "calendar_delete_events"),
            ("args", .dict [("event_ids", .list [.str (eidOf e)]),
              ("summaries", .list [.str (pyFormat (pyOr (dictGetD e "summary" .none)
                (.str title)))])])]],
          needsMore := false, response := "", pendingIntentOp := some "clear" }) ∧
    (2 ≤ (matchEventsByTitle (eventsFromLastToolResults trs) title).length →
      plannerDeleteBranch raw trs win = some
        { plan := [], needsMore := true,
          response := "Which one should I delete?\n"
            ++ String.intercalate "\n"
              (((matchEventsByTitle (eventsFromLastToolResults trs) title).take 5).map optLine),
          pendingIntentOp := some "save" }) := by
  refine ⟨?_, ?_, ?_, ?_⟩
  · intro hz htm
    unfold plannerDeleteBranch
    rw [ht]
    dsimp only
    rw [if_neg (by simp_all)]
    rw [hz, htm]
    rfl
  · intro hz htm
    unfold plannerDeleteBranch
    rw [ht]
    dsimp only
    rw [if_neg (by simp_all)]
    rw [hz, htm]
    rfl
  · intro e hone heid
    unfold plannerDeleteBranch
    rw [ht]
    dsimp only
    rw [if_neg (by simp_all)]
    rw [hone]
    dsimp only
    rw [if_pos (by simp_all)]
  · intro hmany
    unfold plannerDeleteBranch
    rw [ht]
    dsimp only
    rw [if_neg (by simp_all)]
    obtain ⟨e1, e2, l2, hr⟩ :
        ∃ e1 e2 l2, matchEventsByTitle (eventsFromLastToolResults trs) title
          = e1 :: e2 :: l2 := by
      cases hh : matchEventsByTitle (eventsFromLastToolResults trs) title with
      | nil => rw [hh] at hmany; cases hmany
      | cons a l =>
        cases l with
        | nil => rw [hh] at hmany; simp at hmany
        | cons b l2 => exact ⟨a, b, l2, rfl⟩
    rw [hr]

/-- Witness for the amended C7: exactly one match ("Lunch", id `ev1`)
yields the one-call delete plan with no further question. -/
theorem C7_witness :
    plannerDeleteBranch "delete Lunch" c7ToolResults c7Win = some
      { plan := [PyVal.dict [("tool", .str "calendar_delete_events"),
          ("args", .dict [("event_ids", .list [.str "ev1"]),
            ("summaries", .list [.str "Lunch"])])]],
        needsMore := false, response := "", pendingIntentOp := some "clear" } :=
  (C7_delete_by_title "delete Lunch" c7ToolResults c7Win "Lunch" rfl (by decide)).2.2.1
    (PyVal.dict [("id", .str "ev1"), ("summary", .str "Lunch")]) rfl (by decide)
